import Mathlib

/-!
Student report service, `go-service/main.go`.

A shallow embedding of the report-rendering core of the service.

Embedded from `main.go`: the record `Student` (lines 16-38), `generatePDF`
(lines 99-164), `addSection` (lines 166-172), `addField` (lines 174-183) and
`formatDate` (lines 185-195).

Modelled from the libraries `main.go` calls, following their published sources:

* package `time` of the Go standard library: `time.Parse` under the layout
  `time.RFC3339` (`parse`, `getnum`, `atoi`, `skip`, `parseNanoseconds`, `Date`,
  `daysIn`) and `Time.Format` under the layout `"January 2, 2006"` (`absDate`,
  `appendInt`, `Month.String`);
* `github.com/jung-kurt/gofpdf`: the part of the document state that the report
  drives through `New`, `AddPage`, `SetFont`, `SetTextColor`, `SetFillColor`,
  `CellFormat`, `Cell` and `Ln` (cursor, page counter, current font and
  colours, error latch, cells placed).

Go strings are byte strings.  The parser below inspects characters; every
byte the Go parser accepts is a 7-bit ASCII digit, sign or separator, so a
string holding a multi-byte character is rejected by both.
-/

namespace GoTime

/-! ## `time` package: parsing under `time.RFC3339` -/

/-- Layout constant `time.RFC3339`. -/
def RFC3339 : String := "2006-01-02T15:04:05Z07:00"

/-- Go `isDigit(s, i)`: index `i` is in range and holds a decimal digit. -/
def isDigit (s : List Char) (i : Nat) : Bool :=
  match s.get? i with
  | none => false
  | some c => decide ('0' ≤ c) && decide (c ≤ '9')

/-- Value of a digit byte, `int(c - '0')`. -/
def digitVal (c : Char) : Nat := c.toNat - 48

/-- Go `getnum(s, fixed)`: a one- or two-digit number; with `fixed` exactly
two digits are demanded. -/
def getnum (s : List Char) (fixed : Bool) : Option (Nat × List Char) :=
  if !isDigit s 0 then none
  else if !isDigit s 1 then
    if fixed then none
    else
      match s with
      | c :: rest => some (digitVal c, rest)
      | [] => none
  else
    match s with
    | c0 :: c1 :: rest => some (digitVal c0 * 10 + digitVal c1, rest)
    | _ => none

/-- Go `leadingInt` followed by the `len(rem) > 0` test of `atoi`, for an
unsigned digit string: every byte must be a digit.  The accumulator never
reaches the overflow guard of `leadingInt` on the inputs used here (at most
nine digits). -/
def atoiDigits : List Char → Nat → Option Nat
  | [], acc => some acc
  | c :: cs, acc =>
    if decide ('0' ≤ c) && decide (c ≤ '9') then atoiDigits cs (acc * 10 + digitVal c)
    else none

/-- Go `skip(value, prefix)` for a one-byte, non-space literal prefix. -/
def skip (value : List Char) (p : Char) : Option (List Char) :=
  match value with
  | c :: rest => if c = p then some rest else none
  | [] => none

/-- Go `commaOrPeriod`. -/
def commaOrPeriod (c : Char) : Bool := c = '.' || c = ','

/-- Number of leading digit bytes of `s`. -/
def digitRun : List Char → Nat
  | [] => 0
  | c :: cs => if decide ('0' ≤ c) && decide (c ≤ '9') then digitRun cs + 1 else 0

/-- Go `parseNanoseconds(value, nbytes)`, called with `value[0]` a comma or
period and `value[1:nbytes]` all digits: at most nine digits are read and
scaled to nanoseconds. -/
def parseNanoseconds (value : List Char) (nbytes : Nat) : Option Nat :=
  match value with
  | [] => none
  | c :: _ =>
    if !commaOrPeriod c then none
    else
      let nb := if nbytes > 10 then 10 else nbytes
      match atoiDigits ((value.take nb).drop 1) 0 with
      | none => none
      | some ns => some (ns * 10 ^ (10 - nb))

/-- Go `isLeap`. -/
def isLeap (year : Int) : Bool :=
  year % 4 = 0 && (year % 100 != 0 || year % 400 = 0)

/-- Table `daysBefore`: days in a non-leap year before month `m+1`. -/
def daysBefore (m : Nat) : Nat :=
  match m with
  | 0 => 0
  | 1 => 31
  | 2 => 31 + 28
  | 3 => 31 + 28 + 31
  | 4 => 31 + 28 + 31 + 30
  | 5 => 31 + 28 + 31 + 30 + 31
  | 6 => 31 + 28 + 31 + 30 + 31 + 30
  | 7 => 31 + 28 + 31 + 30 + 31 + 30 + 31
  | 8 => 31 + 28 + 31 + 30 + 31 + 30 + 31 + 31
  | 9 => 31 + 28 + 31 + 30 + 31 + 30 + 31 + 31 + 30
  | 10 => 31 + 28 + 31 + 30 + 31 + 30 + 31 + 31 + 30 + 31
  | 11 => 31 + 28 + 31 + 30 + 31 + 30 + 31 + 31 + 30 + 31 + 30
  | _ => 31 + 28 + 31 + 30 + 31 + 30 + 31 + 31 + 30 + 31 + 30 + 31

/-- Go `daysIn(m, year)`. -/
def daysIn (m : Nat) (year : Int) : Nat :=
  if m = 2 && isLeap year then 29
  else daysBefore m - daysBefore (m - 1)

/-! ## `time` package: the instant representation

A `Time` is kept as its Unix second count, its nanosecond part and the
offset of its location.  The three locations `Parse` can attach (`UTC`, a
`FixedZone` of the written offset, or the process-local zone when it has
that very offset at that instant) differ only in name, which the layout
`"January 2, 2006"` never prints.  The calendar arithmetic is the
400/100/4-year cycle algorithm of `Date` and `absDate`. -/

/-- Reduction of an integer to `uint64`. -/
def u64 (n : Int) : Nat := (n % 18446744073709551616).toNat

/-- Reduction of an integer to `int64` (two's complement). -/
def i64 (n : Int) : Int := (n + 9223372036854775808) % 18446744073709551616 - 9223372036854775808

def absoluteZeroYear : Int := -292277022399
def secondsPerMinute : Nat := 60
def secondsPerHour : Nat := 60 * secondsPerMinute
def secondsPerDay : Nat := 24 * secondsPerHour
def daysPer400Years : Nat := 365 * 400 + 97
def daysPer100Years : Nat := 365 * 100 + 24
def daysPer4Years : Nat := 365 * 4 + 1
def unixToInternal : Int := (1969 * 365 + 1969 / 4 - 1969 / 100 + 1969 / 400) * 86400
def internalToUnix : Int := -unixToInternal
def absoluteToInternal : Int := -9223371966579724800
def internalToAbsolute : Int := -absoluteToInternal

/-- An instant with the offset of its location. -/
structure Time where
  unixSec : Int
  nsec : Nat
  offset : Int
deriving DecidableEq, Repr

/-- Go `norm(hi, lo, base)`.  Both divisions have non-negative operands. -/
def norm (hi lo base : Int) : Int × Int :=
  let n1 := (-lo - 1) / base + 1
  let hi1 := if lo < 0 then hi - n1 else hi
  let lo1 := if lo < 0 then lo + n1 * base else lo
  let n2 := lo1 / base
  if lo1 ≥ base then (hi1 + n2, lo1 - n2 * base) else (hi1, lo1)

/-- Go `daysSinceEpoch(year)`, in `uint64`. -/
def daysSinceEpoch (year : Int) : Nat :=
  let y := u64 (year - absoluteZeroYear)
  let n400 := y / 400
  let y1 := y - 400 * n400
  let n100 := y1 / 100
  let y2 := y1 - 100 * n100
  let n4 := y2 / 4
  let y3 := y2 - 4 * n4
  (daysPer400Years * n400 + daysPer100Years * n100 + daysPer4Years * n4 + 365 * y3)
    % 18446744073709551616

/-- Go `Date(year, month, day, hour, min, sec, nsec, UTC)`. -/
def Date (year month day hour min sec nsec : Int) : Time :=
  let ym := norm year (month - 1) 12
  let year := ym.1
  let month := ym.2 + 1
  let sn := norm sec nsec 1000000000
  let ms := norm min sn.1 60
  let hm := norm hour ms.1 60
  let dh := norm day hm.1 24
  let d := daysSinceEpoch year + daysBefore (month - 1).toNat
  let d := if isLeap year && decide (month ≥ 3) then d + 1 else d
  let d := (d + u64 (dh.1 - 1)) % 18446744073709551616
  let abs := (d * secondsPerDay) % 18446744073709551616
  let abs := (abs + u64 (dh.2 * 3600 + hm.2 * 60 + ms.2)) % 18446744073709551616
  let unix := i64 (i64 abs + (absoluteToInternal + internalToUnix))
  { unixSec := unix, nsec := sn.2.toNat, offset := 0 }

/-- Go `Time.abs` via `locabs`: seconds since the absolute zero year, in
the time's own location. -/
def Time.abs (t : Time) : Nat :=
  u64 (i64 (t.unixSec + t.offset) + (unixToInternal + internalToAbsolute))

/-- Month and day of month from the zero-based day of the year, the tail of
Go `absDate`. -/
def monthDay (leap : Bool) (yday : Nat) : Nat × Nat :=
  if leap && decide (yday = 31 + 29 - 1) then (2, 29)
  else
    let day := if leap && decide (yday > 31 + 29 - 1) then yday - 1 else yday
    let month := day / 31
    let stop := daysBefore (month + 1)
    if day ≥ stop then (month + 1 + 1, day - stop + 1)
    else (month + 1, day - daysBefore month + 1)

/-- Go `absDate(abs, true)`: year, month and day of month. -/
def absDate (abs : Nat) : Int × Nat × Nat :=
  let d := abs / secondsPerDay
  let n := d / daysPer400Years
  let y := 400 * n
  let d := d - daysPer400Years * n
  let n := d / daysPer100Years
  let n := n - n / 4
  let y := y + 100 * n
  let d := d - daysPer100Years * n
  let n := d / daysPer4Years
  let y := y + 4 * n
  let d := d - daysPer4Years * n
  let n := d / 365
  let n := n - n / 4
  let y := y + n
  let d := d - 365 * n
  let year := i64 (i64 y + absoluteZeroYear)
  (year, monthDay (isLeap year) d)

/-- Table `longMonthNames`. -/
def longMonthNames : List String :=
  ["January", "February", "March", "April", "May", "June", "July", "August",
   "September", "October", "November", "December"]

/-- Go `Month.String`. -/
def monthString (m : Nat) : String :=
  if 1 ≤ m ∧ m ≤ 12 then longMonthNames.getD (m - 1) ""
  else "%!Month(" ++ toString m ++ ")"

/-- Digit loop of Go `appendInt`: decimal digits of `u`, most significant
first, assembled from the right in a 20-byte buffer. -/
def appendDigits : Nat → Nat → List Char → List Char
  | 0, _, acc => acc
  | fuel + 1, u, acc =>
    if u ≥ 10 then appendDigits fuel (u / 10) (Char.ofNat (48 + u % 10) :: acc)
    else Char.ofNat (48 + u) :: acc

/-- Go `appendInt(b, x, width)` applied to an empty `b`: sign, zero padding
to `width`, digits. -/
def appendInt (x : Int) (width : Nat) : List Char :=
  let ds := appendDigits 20 x.natAbs []
  (if x < 0 then ['-'] else []) ++ List.replicate (width - ds.length) '0' ++ ds

/-- Go `t.Format("January 2, 2006")`: the layout splits into `stdLongMonth`,
the literal `" "`, `stdDay`, the literal `", "` and `stdLongYear`. -/
def Time.Format (t : Time) : String :=
  let ymd := absDate t.abs
  String.mk ((monthString ymd.2.1).data ++ [' '] ++ appendInt ymd.2.2 0 ++ [',', ' ']
    ++ appendInt ymd.1 4)

/-! ## `time.Parse(time.RFC3339, value)` -/

/-- Zone chunk `Z07:00` (`stdISO8601ColonTZ`): `Z`, or sign, two-digit hour,
colon, two-digit minute.  Returns the offset in seconds east of UTC and the
rest of the input. -/
def parseZone (value : List Char) : Option (Int × List Char) :=
  match value with
  | 'Z' :: rest => some (0, rest)
  | _ =>
    if value.length < 6 then none
    else if value.get? 3 != some ':' then none
    else
      match getnum ((value.take 3).drop 1) true, getnum ((value.take 6).drop 4) true with
      | some (hr, _), some (mm, _) =>
        if hr > 24 then none
        else if mm > 60 then none
        else
          let zoneOffset : Int := ((hr * 60 + mm) * 60 + 0 : Nat)
          match value.get? 0 with
          | some '+' => some (zoneOffset, value.drop 6)
          | some '-' => some (-zoneOffset, value.drop 6)
          | _ => none
      | _, _ => none

/-- Seconds chunk `05` (`stdZeroSecond`) with the special case of a
fractional second in the input that the layout does not mention.  Returns
seconds, nanoseconds and the rest of the input. -/
def parseSecond (value : List Char) : Option (Nat × Nat × List Char) :=
  match getnum value true with
  | none => none
  | some (sec, value) =>
    if 60 ≤ sec then none
    else
      match value with
      | c :: _ :: _ =>
        if commaOrPeriod c && isDigit value 1 then
          let n := 1 + digitRun (value.drop 1)
          match parseNanoseconds value n with
          | none => none
          | some nsec => some (sec, nsec, value.drop n)
        else some (sec, 0, value)
      | _ => some (sec, 0, value)

/-- Go `time.Parse(time.RFC3339, value)`: the chunks of the layout in order
(`2006`, `-`, `01`, `-`, `02`, `T`, `15`, `:`, `04`, `:`, `05`, `Z07:00`),
then the extra-text test and the day-of-month validation.  `none` stands for
any returned error. -/
def Parse (value : List Char) : Option Time :=
  if value.length < 4 || !isDigit value 0 then none
  else
    match atoiDigits (value.take 4) 0 with
    | none => none
    | some year =>
    match skip (value.drop 4) '-' with
    | none => none
    | some value =>
    match getnum value true with
    | none => none
    | some (month, value) =>
    if month ≤ 0 || 12 < month then none
    else
    match skip value '-' with
    | none => none
    | some value =>
    match getnum value true with
    | none => none
    | some (day, value) =>
    match skip value 'T' with
    | none => none
    | some value =>
    match getnum value false with
    | none => none
    | some (hour, value) =>
    if 24 ≤ hour then none
    else
    match skip value ':' with
    | none => none
    | some value =>
    match getnum value true with
    | none => none
    | some (min, value) =>
    if 60 ≤ min then none
    else
    match skip value ':' with
    | none => none
    | some value =>
    match parseSecond value with
    | none => none
    | some (sec, nsec, value) =>
    match parseZone value with
    | none => none
    | some (zoneOffset, value) =>
    if value.length != 0 then none
    else if day < 1 || day > daysIn month year then none
    else
      let t := Date year month day hour min sec nsec
      some { t with unixSec := t.unixSec + -zoneOffset, offset := zoneOffset }

/-- Seconds since the absolute zero year of a civil date and time of day. -/
def civilAbs (year month day hour min sec : Nat) : Nat :=
  (daysSinceEpoch (year : Int) + daysBefore (month - 1)
      + (if isLeap (year : Int) && decide (3 ≤ month) then 1 else 0) + (day - 1)) * 86400
    + (hour * 3600 + min * 60 + sec)

end GoTime

/-! ## `main.go` -/

open GoTime

/-- Source `formatDate` (lines 185-195). -/
def formatDate (dateStr : String) : String :=
  if dateStr = "" then "N/A"
  else
    match Parse dateStr.data with
    | none => dateStr
    | some t => t.Format

/-- Decimal value of the `len` characters of `s` that start at position
`start`: a calendar field as it is written in the input. -/
def writtenField (s : String) (start len : Nat) : Nat :=
  ((s.data.drop start).take len).foldl (fun acc c => acc * 10 + (c.toNat - 48)) 0

/-- Year written in positions 0-3 of a timestamp. -/
def writtenYear (s : String) : Nat := writtenField s 0 4

/-- Month written in positions 5-6 of a timestamp. -/
def writtenMonth (s : String) : Nat := writtenField s 5 2

/-- Day of month written in positions 8-9 of a timestamp. -/
def writtenDay (s : String) : Nat := writtenField s 8 2

/-- English full month name of month number `m`. -/
def englishMonthName (m : Nat) : String :=
  match m with
  | 1 => "January"
  | 2 => "February"
  | 3 => "March"
  | 4 => "April"
  | 5 => "May"
  | 6 => "June"
  | 7 => "July"
  | 8 => "August"
  | 9 => "September"
  | 10 => "October"
  | 11 => "November"
  | 12 => "December"
  | _ => ""

/-- Four decimal digits of `y`, zero padded. -/
def fourDigits (y : Nat) : String :=
  String.mk [Char.ofNat (48 + y / 1000 % 10), Char.ofNat (48 + y / 100 % 10),
    Char.ofNat (48 + y / 10 % 10), Char.ofNat (48 + y % 10)]

/-- Long-form calendar date: month name, space, day without leading zero,
comma, space, four-digit year. -/
def longDate (y m d : Nat) : String :=
  englishMonthName m ++ " " ++ toString d ++ ", " ++ fourDigits y

/-! ## RFC 3339 timestamps

The grammar of RFC 3339, section 5.6, with its range restrictions: four-digit
year, two-digit month, day, hour, minute and second, an optional fraction, and
`Z` or a numeric offset; `T` and `Z` may be written in lower case. -/

/-- A decimal digit. -/
def rfc3339Digit (c : Char) : Bool := decide ('0' ≤ c) && decide (c ≤ '9')

/-- Value of a two-digit field. -/
def rfc3339Num (a b : Char) : Nat := (a.toNat - 48) * 10 + (b.toNat - 48)

/-- Days of a month in the Gregorian calendar (0 for a month outside 1-12). -/
def rfc3339MonthDays (y m : Nat) : Nat :=
  match m with
  | 1 => 31
  | 2 => if (y % 4 == 0 && y % 100 != 0) || y % 400 == 0 then 29 else 28
  | 3 => 31
  | 4 => 30
  | 5 => 31
  | 6 => 30
  | 7 => 31
  | 8 => 31
  | 9 => 30
  | 10 => 31
  | 11 => 30
  | 12 => 31
  | _ => 0

/-- Production `time-offset`. -/
def rfc3339Offset (v : List Char) : Bool :=
  match v with
  | [z] => z = 'Z' || z = 'z'
  | [sg, h0, h1, c, m0, m1] =>
    (sg = '+' || sg = '-') && c = ':' && rfc3339Digit h0 && rfc3339Digit h1 &&
      rfc3339Digit m0 && rfc3339Digit m1 && decide (rfc3339Num h0 h1 ≤ 23) &&
      decide (rfc3339Num m0 m1 ≤ 59)
  | _ => false

/-- Rest of a timestamp after the seconds: optional `time-secfrac`, then
`time-offset`. -/
def rfc3339Tail (v : List Char) : Bool :=
  match v with
  | '.' :: ds =>
    let n := (ds.takeWhile rfc3339Digit).length
    decide (1 ≤ n) && rfc3339Offset (ds.drop n)
  | _ => rfc3339Offset v

/-- Whether `s` is a valid RFC 3339 `date-time`. -/
def rfc3339Valid (s : String) : Bool :=
  match s.data with
  | y0 :: y1 :: y2 :: y3 :: c1 :: m0 :: m1 :: c2 :: d0 :: d1 :: t :: h0 :: h1 :: c3 :: n0 :: n1
      :: c4 :: s0 :: s1 :: rest =>
    rfc3339Digit y0 && rfc3339Digit y1 && rfc3339Digit y2 && rfc3339Digit y3 &&
    rfc3339Digit m0 && rfc3339Digit m1 && rfc3339Digit d0 && rfc3339Digit d1 &&
    rfc3339Digit h0 && rfc3339Digit h1 && rfc3339Digit n0 && rfc3339Digit n1 &&
    rfc3339Digit s0 && rfc3339Digit s1 &&
    c1 = '-' && c2 = '-' && (t = 'T' || t = 't') && c3 = ':' && c4 = ':' &&
    decide (1 ≤ rfc3339Num d0 d1) &&
    decide (rfc3339Num d0 d1 ≤
      rfc3339MonthDays (rfc3339Num y0 y1 * 100 + rfc3339Num y2 y3) (rfc3339Num m0 m1)) &&
    decide (rfc3339Num h0 h1 ≤ 23) && decide (rfc3339Num n0 n1 ≤ 59) &&
    decide (rfc3339Num s0 s1 ≤ 60) && rfc3339Tail rest
  | _ => false

/-! ## `gofpdf`: the document state driven by `main.go`

Only the part of `gofpdf.Fpdf` that the report uses is kept: the page
counter, the cursor, the height of the last cell, the current font and
colours, the error latch and the cells placed so far.  The page geometry is
the one `gofpdf.New("P", "mm", "A4", "")` sets up, which no call in `main.go`
changes afterwards.

Lengths are exact multiples of 1/36000 mm, so that both millimetres (the user
unit) and hundredths of a point (the unit of the page-size table) are whole
numbers: with `k = 72 / 25.4` points per millimetre, 1 mm is 36000 units and
1/100 pt is 127 units.  The library holds the same quantities as `float64`;
every comparison of the report with the page-break threshold has a slack of
about 7 mm, far above any rounding error. -/

namespace Gofpdf

/-- A length given in millimetres, the user unit chosen by `"mm"`. -/
def mm (n : Int) : Int := n * 36000

/-- A length given in hundredths of a point, converted by `1 / k`. -/
def centiPt (n : Int) : Int := n * 127

/-- Width of the page: `595.28 / k` (table entry `a4`, orientation `P`). -/
def pageW : Int := centiPt 59528

/-- Height of the page: `841.89 / k`. -/
def pageH : Int := centiPt 84189

/-- Default page margin of `New`: `28.35 / k`, one centimetre. -/
def margin : Int := centiPt 2835

def lMargin : Int := margin
def tMargin : Int := margin
def rMargin : Int := margin

/-- Bottom margin set by `SetAutoPageBreak(true, 2 * margin)`. -/
def bMargin : Int := 2 * margin

/-- Cursor height past which a cell triggers a page break: `h - bMargin`. -/
def pageBreakTrigger : Int := pageH - bMargin

/-- One placed cell: its page, box, text and the styling in force. -/
structure Cell where
  page : Nat
  x : Int
  y : Int
  w : Int
  h : Int
  txt : String
  border : String
  align : String
  fill : Bool
  fontFamily : String
  fontStyle : String
  fontSizePt : Int
  textColor : Int × Int × Int
  fillColor : Int × Int × Int
deriving DecidableEq

/-- Document under construction. -/
structure Fpdf where
  page : Nat
  x : Int
  y : Int
  lasth : Int
  fontFamily : String
  fontStyle : String
  fontSizePt : Int
  textColor : Int × Int × Int
  fillColor : Int × Int × Int
  err : Option String
  cells : List Cell
deriving DecidableEq

/-- Document made by `gofpdf.New("P", "mm", "A4", "")`: no page yet, no font selected,
font size 12, black colours. -/
def New : Fpdf :=
  { page := 0, x := 0, y := 0, lasth := 0, fontFamily := "", fontStyle := "", fontSizePt := 12,
    textColor := (0, 0, 0), fillColor := (0, 0, 0), err := none, cells := [] }

/-- Method `AddPage`: a fresh page with the cursor at the top-left margin; font and
colours are carried over. -/
def Fpdf.AddPage (f : Fpdf) : Fpdf :=
  if f.err.isSome then f
  else { f with page := f.page + 1, x := lMargin, y := tMargin }

/-- Go `strings.ToLower` on ASCII text. -/
def toLower (s : String) : String := String.mk (s.data.map Char.toLower)

/-- Go `strings.ToUpper` on ASCII text. -/
def toUpper (s : String) : String := String.mk (s.data.map Char.toUpper)

/-- Families of the core fonts table. -/
def coreFonts : List String := ["courier", "helvetica", "times", "symbol", "zapfdingbats"]

/-- Method `SetFont`: the family is lower-cased and `arial` is mapped to `helvetica`;
the style is upper-cased, the underline and strike-out flags are taken out of it and `IB`
becomes `BI`; a size of 0 keeps the current size.  A family outside the core fonts, or a
style for which no core font data exists, latches an error. -/
def Fpdf.SetFont (f : Fpdf) (familyStr styleStr : String) (size : Int) : Fpdf :=
  if f.err.isSome then f
  else
    let family := if familyStr = "" then f.fontFamily else toLower familyStr
    let style := String.mk ((toUpper styleStr).data.filter (fun c => c != 'U' && c != 'S'))
    let style := if style = "IB" then "BI" else style
    let size := if size = 0 then f.fontSizePt else size
    let family := if family = "arial" then "helvetica" else family
    if coreFonts.contains family then
      let family := if family = "symbol" then "zapfdingbats" else family
      let style := if family = "zapfdingbats" then "" else style
      if ["", "B", "I", "BI"].contains style then
        { f with fontFamily := family, fontStyle := style, fontSizePt := size }
      else { f with err := some "could not locate font data" }
    else { f with err := some "undefined font" }

/-- Method `SetTextColor`. -/
def Fpdf.SetTextColor (f : Fpdf) (r g b : Int) : Fpdf := { f with textColor := (r, g, b) }

/-- Method `SetFillColor`. -/
def Fpdf.SetFillColor (f : Fpdf) (r g b : Int) : Fpdf := { f with fillColor := (r, g, b) }

/-- Method `CellFormat(w, h, txtStr, borderStr, ln, alignStr, fill, 0, "")`.
Nothing happens once an error is latched; without a selected font an error is
latched.  When the cell would end below `pageBreakTrigger` a page is added
first and the horizontal position is kept.  A width of 0 stands for the rest
of the line up to the right margin.  After the cell the cursor moves right
(`ln = 0`), to the start of the next line (`ln = 1`) or straight down
(`ln = 2`). -/
def Fpdf.CellFormat (f : Fpdf) (w h : Int) (txtStr borderStr : String) (ln : Nat)
    (alignStr : String) (fill : Bool) : Fpdf :=
  if f.err.isSome then f
  else if f.fontFamily = "" then
    { f with err := some "font has not been set; unable to render text" }
  else
    let f1 := if f.y + h > pageBreakTrigger then { f.AddPage with x := f.x } else f
    let w1 := if w = 0 then pageW - rMargin - f1.x else w
    let cell : Cell :=
      { page := f1.page, x := f1.x, y := f1.y, w := w1, h := h, txt := txtStr,
        border := borderStr, align := alignStr, fill := fill, fontFamily := f1.fontFamily, fontStyle := f1.fontStyle,
        fontSizePt := f1.fontSizePt, textColor := f1.textColor, fillColor := f1.fillColor }
    let f2 := { f1 with cells := f1.cells ++ [cell], lasth := h }
    if ln > 0 then
      { f2 with y := f2.y + h, x := if ln = 1 then lMargin else f2.x }
    else { f2 with x := f2.x + w1 }

/-- Method `Cell(w, h, txtStr)`. -/
def Fpdf.Cell (f : Fpdf) (w h : Int) (txtStr : String) : Fpdf :=
  f.CellFormat w h txtStr "" 0 "L" false

/-- Method `Ln(h)`: back to the left margin and down by `h`, or by the height of
the last cell when `h` is negative. -/
def Fpdf.Ln (f : Fpdf) (h : Int) : Fpdf :=
  { f with x := lMargin, y := if h < 0 then f.y + f.lasth else f.y + h }

end Gofpdf

/-! ## `main.go`: the report -/

open Gofpdf

/-- Source `Student` (lines 16-38). -/
structure Student where
  ID : Int
  Name : String
  Email : String
  Roll : Int
  Phone : String
  Gender : String
  DOB : String
  Class : String
  Section : String
  FatherName : String
  FatherPhone : String
  MotherName : String
  MotherPhone : String
  GuardianName : String
  GuardianPhone : String
  RelationOfGuardian : String
  CurrentAddress : String
  PermanentAddress : String
  AdmissionDate : String
  ReporterName : String
  SystemAccess : Bool
deriving DecidableEq

/-- Go `fmt.Sprintf("%d", n)`. -/
def sprintfD (n : Int) : String := toString n

/-- Source `addSection` (lines 166-172). -/
def addSection (pdf : Fpdf) (title : String) : Fpdf :=
  let pdf := pdf.SetFont "Arial" "B" 14
  let pdf := pdf.SetTextColor 0 0 0
  let pdf := pdf.SetFillColor 240 240 240
  let pdf := pdf.CellFormat 0 (mm 10) title "" 1 "L" true
  pdf.Ln (mm 2)

/-- Source `addField` (lines 174-183). -/
def addField (pdf : Fpdf) (label value : String) : Fpdf :=
  let pdf := pdf.SetFont "Arial" "B" 10
  let pdf := pdf.SetTextColor 50 50 50
  let pdf := pdf.Cell (mm 50) (mm 8) label
  let pdf := pdf.SetFont "Arial" "" 10
  let pdf := pdf.SetTextColor 0 0 0
  let pdf := pdf.Cell 0 (mm 8) value
  pdf.Ln (mm 8)

/-- Source `generatePDF` (lines 99-164).  The clock reading `time.Now()` is the
parameter `now`; the second component is the returned `error`. -/
def generatePDF (student : Student) (now : GoTime.Time) : Fpdf × Option String :=
  let pdf := New
  let pdf := pdf.AddPage
  -- Header
  let pdf := pdf.SetFont "Arial" "B" 20
  let pdf := pdf.SetTextColor 0 0 128
  let pdf := pdf.CellFormat 0 (mm 15) "STUDENT REPORT" "" 1 "C" false
  let pdf := pdf.Ln (mm 5)
  let pdf := pdf.SetFont "Arial" "" 10
  let pdf := pdf.SetTextColor 100 100 100
  let currentDate := now.Format
  let pdf := pdf.CellFormat 0 (mm 5) ("Generated on: " ++ currentDate) "" 1 "R" false
  let pdf := pdf.Ln (mm 5)
  -- Personal Information Section
  let pdf := addSection pdf "Personal Information"
  let pdf := addField pdf "Name:" student.Name
  let pdf := addField pdf "Roll No:" (sprintfD student.Roll)
  let pdf := addField pdf "Date of Birth:" (formatDate student.DOB)
  let pdf := addField pdf "Gender:" student.Gender
  let pdf := addField pdf "Admission Date:" (formatDate student.AdmissionDate)
  let pdf := pdf.Ln (mm 5)
  -- Contact Information Section
  let pdf := addSection pdf "Contact Information"
  let pdf := addField pdf "Email:" student.Email
  let pdf := addField pdf "Phone:" student.Phone
  let pdf := addField pdf "Current Address:" student.CurrentAddress
  let pdf := addField pdf "Permanent Address:" student.PermanentAddress
  let pdf := pdf.Ln (mm 5)
  -- Academic Information Section
  let pdf := addSection pdf "Academic Information"
  let pdf := addField pdf "Class:" student.Class
  let pdf := addField pdf "Section:" student.Section
  let pdf := addField pdf "Reporter/Teacher:" student.ReporterName
  let pdf := pdf.Ln (mm 5)
  -- Family Information Section
  let pdf := addSection pdf "Family Information"
  let pdf := addField pdf "Father Name:" student.FatherName
  let pdf := addField pdf "Father Phone:" student.FatherPhone
  let pdf := addField pdf "Mother Name:" student.MotherName
  let pdf := addField pdf "Mother Phone:" student.MotherPhone
  let pdf := addField pdf "Guardian Name:" student.GuardianName
  let pdf := addField pdf "Guardian Phone:" student.GuardianPhone
  let pdf := addField pdf "Guardian Relation:" student.RelationOfGuardian
  -- Footer
  let pdf := pdf.Ln (mm 10)
  let pdf := pdf.SetFont "Arial" "I" 8
  let pdf := pdf.SetTextColor 150 150 150
  let pdf := pdf.CellFormat 0 (mm 5)
    "This is a computer-generated document. No signature required." "" 1 "C" false
  (pdf, none)


/-! ## The report as a sequence of library calls -/

/-- One call of a `gofpdf` method made by the report. -/
inductive Call where
  | SetFont (familyStr styleStr : String) (size : Int)
  | SetTextColor (r g b : Int)
  | SetFillColor (r g b : Int)
  | CellFormat (w h : Int) (txtStr borderStr : String) (ln : Nat) (alignStr : String)
      (fill : Bool)
  | Cell (w h : Int) (txtStr : String)
  | Ln (h : Int)

/-- Effect of a call on the document. -/
def Call.run (c : Call) (pdf : Fpdf) : Fpdf :=
  match c with
  | .SetFont familyStr styleStr size => pdf.SetFont familyStr styleStr size
  | .SetTextColor r g b => pdf.SetTextColor r g b
  | .SetFillColor r g b => pdf.SetFillColor r g b
  | .CellFormat w h txtStr borderStr ln alignStr fill =>
    pdf.CellFormat w h txtStr borderStr ln alignStr fill
  | .Cell w h txtStr => pdf.Cell w h txtStr
  | .Ln h => pdf.Ln h

/-- Document after a sequence of calls. -/
def runCalls (cs : List Call) (pdf : Fpdf) : Fpdf := cs.foldl (fun p c => c.run p) pdf

/-- Every document state passed through by a sequence of calls, the first and the
last included. -/
def trace (pdf : Fpdf) : List Call → List Fpdf
  | [] => [pdf]
  | c :: cs => pdf :: trace (c.run pdf) cs

/-- Calls made by `addSection`, in order. -/
def addSectionCalls (title : String) : List Call :=
  [.SetFont "Arial" "B" 14, .SetTextColor 0 0 0, .SetFillColor 240 240 240,
   .CellFormat 0 (mm 10) title "" 1 "L" true, .Ln (mm 2)]

/-- Calls made by `addField`, in order. -/
def addFieldCalls (label value : String) : List Call :=
  [.SetFont "Arial" "B" 10, .SetTextColor 50 50 50, .Cell (mm 50) (mm 8) label,
   .SetFont "Arial" "" 10, .SetTextColor 0 0 0, .Cell 0 (mm 8) value, .Ln (mm 8)]

/-- Calls made by `generatePDF` after `pdf.AddPage()`, in order. -/
def generatePDFCalls (student : Student) (now : GoTime.Time) : List Call :=
  [.SetFont "Arial" "B" 20, .SetTextColor 0 0 128,
   .CellFormat 0 (mm 15) "STUDENT REPORT" "" 1 "C" false, .Ln (mm 5),
   .SetFont "Arial" "" 10, .SetTextColor 100 100 100,
   .CellFormat 0 (mm 5) ("Generated on: " ++ now.Format) "" 1 "R" false, .Ln (mm 5)]
  ++ addSectionCalls "Personal Information"
  ++ addFieldCalls "Name:" student.Name
  ++ addFieldCalls "Roll No:" (sprintfD student.Roll)
  ++ addFieldCalls "Date of Birth:" (formatDate student.DOB)
  ++ addFieldCalls "Gender:" student.Gender
  ++ addFieldCalls "Admission Date:" (formatDate student.AdmissionDate)
  ++ [.Ln (mm 5)]
  ++ addSectionCalls "Contact Information"
  ++ addFieldCalls "Email:" student.Email
  ++ addFieldCalls "Phone:" student.Phone
  ++ addFieldCalls "Current Address:" student.CurrentAddress
  ++ addFieldCalls "Permanent Address:" student.PermanentAddress
  ++ [.Ln (mm 5)]
  ++ addSectionCalls "Academic Information"
  ++ addFieldCalls "Class:" student.Class
  ++ addFieldCalls "Section:" student.Section
  ++ addFieldCalls "Reporter/Teacher:" student.ReporterName
  ++ [.Ln (mm 5)]
  ++ addSectionCalls "Family Information"
  ++ addFieldCalls "Father Name:" student.FatherName
  ++ addFieldCalls "Father Phone:" student.FatherPhone
  ++ addFieldCalls "Mother Name:" student.MotherName
  ++ addFieldCalls "Mother Phone:" student.MotherPhone
  ++ addFieldCalls "Guardian Name:" student.GuardianName
  ++ addFieldCalls "Guardian Phone:" student.GuardianPhone
  ++ addFieldCalls "Guardian Relation:" student.RelationOfGuardian
  ++ [.Ln (mm 10), .SetFont "Arial" "I" 8, .SetTextColor 150 150 150,
      .CellFormat 0 (mm 5) "This is a computer-generated document. No signature required."
        "" 1 "C" false]

/-! ## Layout bookkeeping for a call sequence -/

/-- Vertical advance a call makes when no page break intervenes. -/
def Call.advance : Call → Int
  | .CellFormat _ h _ _ ln _ _ => if ln > 0 then h else 0
  | .Ln h => h
  | _ => 0

/-- Height of the cell a call places (0 for the other calls). -/
def Call.height : Call → Int
  | .CellFormat _ h _ _ _ _ _ => h
  | .Cell _ h _ => h
  | _ => 0

/-- Vertical room below the cursor that a call sequence asks for: the lowest
cell bottom or cursor position it reaches, counted from the starting cursor. -/
def need : List Call → Int
  | [] => 0
  | c :: cs => max c.height (c.advance + need cs)

/-- Static check of one call: a font request is `Arial` in one of the styles bold,
regular, italic; a cell is only placed once a font has been selected (`fontSet`);
heights and line feeds are not negative. -/
def Call.ok (fontSet : Bool) : Call → Bool
  | .SetFont familyStr styleStr _ =>
    decide (familyStr = "Arial") && ["B", "", "I"].contains styleStr
  | .CellFormat _ h _ _ _ _ _ => fontSet && decide (0 ≤ h)
  | .Cell _ h _ => fontSet && decide (0 ≤ h)
  | .Ln h => decide (0 ≤ h)
  | _ => true

/-- Whether a call selects a font. -/
def Call.setsFont : Call → Bool
  | .SetFont _ _ _ => true
  | _ => false

/-- Static check of a call sequence, threading whether a font is selected. -/
def wellFormed : Bool → List Call → Bool
  | _, [] => true
  | fontSet, c :: cs => c.ok fontSet && wellFormed (fontSet || c.setsFont) cs

/-- What a reader sees of a placed cell: page, line, height, text and whether it
is a filled banner. -/
structure Box where
  page : Nat
  y : Int
  h : Int
  txt : String
  fill : Bool
deriving DecidableEq

/-- View of a cell. -/
def Gofpdf.Cell.box (c : Gofpdf.Cell) : Box :=
  { page := c.page, y := c.y, h := c.h, txt := c.txt, fill := c.fill }

/-- Position of a box: its page and line. -/
def Box.pos (b : Box) : Nat × Int := (b.page, b.y)

/-- Geometry of a box: everything but its text. -/
def Box.geom (b : Box) : Nat × Int × Int × Bool := (b.page, b.y, b.h, b.fill)

/-- Text of the cell a call places, if it places one. -/
def Call.text : Call → Option String
  | .CellFormat _ _ txtStr _ _ _ _ => some txtStr
  | .Cell _ _ txtStr => some txtStr
  | _ => none

/-- Call with its text blanked: what is left is geometry and styling. -/
def Call.blank : Call → Call
  | .CellFormat w h _ borderStr ln alignStr fill => .CellFormat w h "" borderStr ln alignStr fill
  | .Cell w h _ => .Cell w h ""
  | c => c

/-- Box placed by a call at cursor height `y` on page `page`, if it places one. -/
def Call.place (page : Nat) (y : Int) : Call → Option Box
  | .CellFormat _ h txtStr _ _ _ fill =>
    some { page := page, y := y, h := h, txt := txtStr, fill := fill }
  | .Cell _ h txtStr => some { page := page, y := y, h := h, txt := txtStr, fill := false }
  | _ => none

/-- Boxes a call sequence places from cursor height `y` on page `page` when no
page break intervenes. -/
def layout (page : Nat) (y : Int) : List Call → List Box
  | [] => []
  | c :: cs => (c.place page y).toList ++ layout page (y + c.advance) cs

/-- Indices, counted from `i`, of the positions that are followed by an equal
position: the cells that share their line with the next cell. -/
def rowStartsFrom (i : Nat) : List (Nat × Int) → List Nat
  | [] => []
  | a :: rest =>
    match rest with
    | [] => []
    | b :: _ => if a = b then i :: rowStartsFrom (i + 1) rest else rowStartsFrom (i + 1) rest

/-- Field rows of a document: each cell that shares its line with the next cell is
a label, and the next cell is its value. -/
def fieldRows (bs : List Box) : List (String × String) :=
  (rowStartsFrom 0 (bs.map Box.pos)).map
    (fun i => ((bs.map (fun b => b.txt)).getD i "", (bs.map (fun b => b.txt)).getD (i + 1) ""))

/-- Indices, counted from `i`, of the entries that are `true`. -/
def trueIndicesFrom (i : Nat) : List Bool → List Nat
  | [] => []
  | b :: bs => if b then i :: trueIndicesFrom (i + 1) bs else trueIndicesFrom (i + 1) bs

/-- Section banners of a document: the texts of its filled cells, in order. -/
def banners (bs : List Box) : List String :=
  (trueIndicesFrom 0 (bs.map (fun b => b.fill))).map (fun i => (bs.map (fun b => b.txt)).getD i "")

/-- Record with every string field empty, `roll` and `id` zero and `systemAccess`
false. -/
def emptyStudent : Student :=
  { ID := 0, Name := "", Email := "", Roll := 0, Phone := "", Gender := "", DOB := "",
    Class := "", Section := "", FatherName := "", FatherPhone := "", MotherName := "",
    MotherPhone := "", GuardianName := "", GuardianPhone := "", RelationOfGuardian := "",
    CurrentAddress := "", PermanentAddress := "", AdmissionDate := "", ReporterName := "",
    SystemAccess := false }


/-- Start of the Unix epoch, used as a sample clock reading. -/
def epoch : GoTime.Time := { unixSec := 0, nsec := 0, offset := 0 }

/-- Texts of the report in reading order: title, caption, then each section banner
followed by the label and the value of each of its rows, then the footer. -/
def reportTexts (student : Student) (now : GoTime.Time) : List String :=
  ["STUDENT REPORT", "Generated on: " ++ now.Format,
   "Personal Information",
   "Name:", student.Name,
   "Roll No:", sprintfD student.Roll,
   "Date of Birth:", formatDate student.DOB,
   "Gender:", student.Gender,
   "Admission Date:", formatDate student.AdmissionDate,
   "Contact Information",
   "Email:", student.Email,
   "Phone:", student.Phone,
   "Current Address:", student.CurrentAddress,
   "Permanent Address:", student.PermanentAddress,
   "Academic Information",
   "Class:", student.Class,
   "Section:", student.Section,
   "Reporter/Teacher:", student.ReporterName,
   "Family Information",
   "Father Name:", student.FatherName,
   "Father Phone:", student.FatherPhone,
   "Mother Name:", student.MotherName,
   "Mother Phone:", student.MotherPhone,
   "Guardian Name:", student.GuardianName,
   "Guardian Phone:", student.GuardianPhone,
   "Guardian Relation:", student.RelationOfGuardian,
   "This is a computer-generated document. No signature required."]

/-- Line on which `addField` places its row: the cursor line, or the top of a fresh
page when the row does not fit below the cursor. -/
def rowLine (pdf : Fpdf) : Nat × Int :=
  if pdf.y + mm 8 > pageBreakTrigger then (pdf.page + 1, tMargin) else (pdf.page, pdf.y)

/-- Vertical advances of the report in millimetres, in order: header, then per
section its banner, its rows and the gap that follows it, then the footer. -/
def reportAdvances : List Int :=
  [mm 15, mm 5, mm 5, mm 5,
   mm 10, mm 2, mm 8, mm 8, mm 8, mm 8, mm 8, mm 5,
   mm 10, mm 2, mm 8, mm 8, mm 8, mm 8, mm 5,
   mm 10, mm 2, mm 8, mm 8, mm 8, mm 5,
   mm 10, mm 2, mm 8, mm 8, mm 8, mm 8, mm 8, mm 8, mm 8,
   mm 10, mm 5]

namespace GoTime

theorem norm_id (hi lo base : Int) (h0 : 0 ≤ lo) (h1 : lo < base) : norm hi lo base = (hi, lo) := by
  unfold norm
  have h2 : ¬ lo < 0 := by omega
  have h3 : ¬ lo ≥ base := by omega
  simp [h2, h3]

theorem absDate_cycles (a b c e yd tod : Nat) (hb : b < 4) (hc : c < 25) (he : e < 4)
    (hyd : yd < 365 + (if e = 3 ∧ (c ≠ 24 ∨ b = 3) then 1 else 0)) (htod : tod < 86400) :
    absDate ((146097 * a + 36524 * b + 1461 * c + 365 * e + yd) * 86400 + tod)
      = (i64 (i64 ((400 * a + 100 * b + 4 * c + e : Nat) : Int) + absoluteZeroYear),
          monthDay (isLeap (i64 (i64 ((400 * a + 100 * b + 4 * c + e : Nat) : Int)
            + absoluteZeroYear))) yd) := by
  have hyd2 : yd < 366 := by split at hyd <;> omega
  have e0 : ((146097 * a + 36524 * b + 1461 * c + 365 * e + yd) * 86400 + tod) / 86400
      = 146097 * a + 36524 * b + 1461 * c + 365 * e + yd := by omega
  have e1 : (146097 * a + 36524 * b + 1461 * c + 365 * e + yd) / 146097 = a := by
    split at hyd <;> omega
  have e2 : 146097 * a + 36524 * b + 1461 * c + 365 * e + yd - 146097 * a
      = 36524 * b + 1461 * c + 365 * e + yd := by omega
  have e3 : (36524 * b + 1461 * c + 365 * e + yd) / 36524
      - (36524 * b + 1461 * c + 365 * e + yd) / 36524 / 4 = b := by
    clear e0 e1 e2
    split at hyd <;> interval_cases b <;> interval_cases e <;> omega
  have e4 : 36524 * b + 1461 * c + 365 * e + yd - 36524 * b = 1461 * c + 365 * e + yd := by omega
  have e5 : (1461 * c + 365 * e + yd) / 1461 = c := by
    split at hyd <;> omega
  have e6 : 1461 * c + 365 * e + yd - 1461 * c = 365 * e + yd := by omega
  have e7 : (365 * e + yd) / 365 - (365 * e + yd) / 365 / 4 = e := by
    clear e0 e1 e2 e3 e4 e5 e6
    split at hyd <;> interval_cases e <;> omega
  have e8 : 365 * e + yd - 365 * e = yd := by omega
  simp only [absDate, secondsPerDay, secondsPerHour, secondsPerMinute, daysPer400Years,
    daysPer100Years, daysPer4Years, Nat.reduceMul, Nat.reduceAdd, e0, e1, e2, e3, e4, e5, e6, e7, e8]

theorem daysSinceEpoch_eq (year : Nat) (hy : year ≤ 9999) :
    daysSinceEpoch (year : Int)
      = 146097 * ((year + 292277022399) / 400) + 36524 * ((year + 292277022399) % 400 / 100)
        + 1461 * ((year + 292277022399) % 100 / 4) + 365 * ((year + 292277022399) % 4) := by
  have hu : u64 ((year : Int) - absoluteZeroYear) = year + 292277022399 := by
    unfold u64 absoluteZeroYear
    omega
  have h1 : year + 292277022399 - 400 * ((year + 292277022399) / 400)
      = (year + 292277022399) % 400 := by omega
  have h2 : (year + 292277022399) % 400 - 100 * ((year + 292277022399) % 400 / 100)
      = (year + 292277022399) % 100 := by omega
  have h3 : (year + 292277022399) % 100 - 4 * ((year + 292277022399) % 100 / 4)
      = (year + 292277022399) % 4 := by omega
  simp only [daysSinceEpoch, hu, daysPer400Years, daysPer100Years, daysPer4Years, Nat.reduceMul,
    Nat.reduceAdd, h1, h2, h3]
  apply Nat.mod_eq_of_lt
  omega

theorem isLeap_eq (year : Nat) :
    isLeap (year : Int) = true ↔
      ((year + 292277022399) % 4 = 3 ∧
        ((year + 292277022399) % 100 / 4 ≠ 24 ∨ (year + 292277022399) % 400 / 100 = 3)) := by
  unfold isLeap
  simp only [Bool.and_eq_true, Bool.or_eq_true, decide_eq_true_eq, bne_iff_ne, ne_eq]
  omega

theorem daysBefore_le (m : Nat) : daysBefore m ≤ 365 := by
  unfold daysBefore
  split <;> omega

theorem daysSinceEpoch_bounds (year : Nat) (hy : year ≤ 9999) :
    106751990207835 ≤ daysSinceEpoch (year : Int) ∧
      daysSinceEpoch (year : Int) ≤ 106751994006357 := by
  rw [daysSinceEpoch_eq year hy]
  have h1 : 730692555 ≤ (year + 292277022399) / 400 := by omega
  have h2 : (year + 292277022399) / 400 ≤ 730692580 := by omega
  have h3 : (year + 292277022399) % 400 / 100 ≤ 3 := by omega
  have h4 : (year + 292277022399) % 100 / 4 ≤ 24 := by omega
  have h5 : (year + 292277022399) % 4 ≤ 3 := by omega
  generalize (year + 292277022399) / 400 = a at h1 h2 ⊢
  generalize (year + 292277022399) % 400 / 100 = b at h3 ⊢
  generalize (year + 292277022399) % 100 / 4 = c at h4 ⊢
  generalize (year + 292277022399) % 4 = e at h5 ⊢
  omega

theorem wrap_chain (T : Nat) (off : Int) (h1 : 9223371950000000000 ≤ T)
    (h2 : T ≤ 9223372290000000000) :
    u64 (i64 (i64 (i64 (T : Int) + (absoluteToInternal + internalToUnix)) + -off + off)
      + (unixToInternal + internalToAbsolute)) = T := by
  have k1 : absoluteToInternal + internalToUnix = -9223372028715321600 := by decide
  have k2 : unixToInternal + internalToAbsolute = 9223372028715321600 := by decide
  have s1 : i64 (i64 (T : Int) + -9223372028715321600) = (T : Int) - 9223372028715321600 := by
    unfold i64
    omega
  have s2 : i64 ((T : Int) - 9223372028715321600 + -off + off) = (T : Int) - 9223372028715321600 := by
    unfold i64
    omega
  rw [k1, k2, s1, s2]
  unfold u64
  omega

theorem abs_Date (year month day hour min sec nsec : Nat) (off : Int)
    (hy : year ≤ 9999) (hm1 : 1 ≤ month) (hm2 : month ≤ 12) (hd1 : 1 ≤ day) (hd2 : day ≤ 31)
    (hh : hour < 24) (hmi : min < 60) (hs : sec < 60) (hns : nsec < 1000000000) :
    Time.abs { Date year month day hour min sec nsec with
        unixSec := (Date year month day hour min sec nsec).unixSec + -off, offset := off }
      = civilAbs year month day hour min sec := by
  have n1 : norm (year : Int) ((month : Int) - 1) 12 = ((year : Int), (month : Int) - 1) :=
    norm_id _ _ _ (by omega) (by omega)
  have n2 : norm (sec : Int) (nsec : Int) 1000000000 = ((sec : Int), (nsec : Int)) :=
    norm_id _ _ _ (by omega) (by omega)
  have n3 : norm (min : Int) (sec : Int) 60 = ((min : Int), (sec : Int)) :=
    norm_id _ _ _ (by omega) (by omega)
  have n4 : norm (hour : Int) (min : Int) 60 = ((hour : Int), (min : Int)) :=
    norm_id _ _ _ (by omega) (by omega)
  have n5 : norm (day : Int) (hour : Int) 24 = ((day : Int), (hour : Int)) :=
    norm_id _ _ _ (by omega) (by omega)
  have hb := daysSinceEpoch_bounds year hy
  have hdb := daysBefore_le (month - 1)
  have hmm : ((month : Int) - 1 + 1 - 1).toNat = month - 1 := by omega
  have hge : ((month : Int) - 1 + 1 ≥ 3) ↔ 3 ≤ month := by omega
  have hday : u64 ((day : Int) - 1) = day - 1 := by
    unfold u64
    omega
  have htod : u64 ((hour : Int) * 3600 + (min : Int) * 60 + (sec : Int))
      = hour * 3600 + min * 60 + sec := by
    unfold u64
    omega
  simp only [Date, n1, n2, n3, n4, n5, hmm, hge, hday, htod, Time.abs, civilAbs]
  generalize daysSinceEpoch (year : Int) = D at hb ⊢
  generalize daysBefore (month - 1) = B at hdb ⊢
  generalize (isLeap (year : Int) && decide (3 ≤ month)) = L
  have hL : (if L = true then D + B + 1 else D + B) = D + B + (if L = true then 1 else 0) := by
    cases L <;> simp
  rw [hL]
  have hN : D + B + (if L = true then 1 else 0) + (day - 1) ≤ 106751994006357 + 400 := by
    split <;> omega
  have hN0 : 106751990207835 ≤ D + B + (if L = true then 1 else 0) + (day - 1) := by
    split <;> omega
  generalize D + B + (if L = true then 1 else 0) + (day - 1) = N at hN hN0 ⊢
  have m1 : N % 18446744073709551616 = N := Nat.mod_eq_of_lt (by omega)
  have m2 : N * secondsPerDay % 18446744073709551616 = N * 86400 :=
    Nat.mod_eq_of_lt (by unfold secondsPerDay secondsPerHour secondsPerMinute; omega)
  have m3 : (N * 86400 + (hour * 3600 + min * 60 + sec)) % 18446744073709551616
      = N * 86400 + (hour * 3600 + min * 60 + sec) := Nat.mod_eq_of_lt (by omega)
  rw [m1, m2, m3]
  exact wrap_chain _ off (by omega) (by omega)

theorem year_back (year : Nat) (hy : year ≤ 9999) :
    i64 (i64 (((400 * ((year + 292277022399) / 400)
      + 100 * ((year + 292277022399) % 400 / 100) + 4 * ((year + 292277022399) % 100 / 4)
      + (year + 292277022399) % 4 : Nat)) : Int) + absoluteZeroYear) = (year : Int) := by
  have h : 400 * ((year + 292277022399) / 400)
      + 100 * ((year + 292277022399) % 400 / 100) + 4 * ((year + 292277022399) % 100 / 4)
      + (year + 292277022399) % 4 = year + 292277022399 := by omega
  rw [h]
  unfold i64 absoluteZeroYear
  omega

theorem yday_lt (leap : Bool) (month day : Nat) (hm1 : 1 ≤ month) (hm2 : month ≤ 12)
    (hd2 : day ≤ if month = 2 && leap then 29 else daysBefore month - daysBefore (month - 1)) :
    daysBefore (month - 1) + (if leap && decide (3 ≤ month) then 1 else 0) + (day - 1)
      < 365 + (if leap = true then 1 else 0) := by
  interval_cases month <;> cases leap <;> simp [daysBefore] at hd2 ⊢ <;> omega

theorem monthDay_yday (leap : Bool) (month day : Nat) (hm1 : 1 ≤ month) (hm2 : month ≤ 12)
    (hd1 : 1 ≤ day)
    (hd2 : day ≤ if month = 2 && leap then 29 else daysBefore month - daysBefore (month - 1)) :
    monthDay leap (daysBefore (month - 1) + (if leap && decide (3 ≤ month) then 1 else 0)
      + (day - 1)) = (month, day) := by
  interval_cases month <;> cases leap <;> simp [daysBefore] at hd2 ⊢ <;>
    interval_cases day <;> decide


theorem absDate_civilAbs (year month day hour min sec : Nat)
    (hy : year ≤ 9999) (hm1 : 1 ≤ month) (hm2 : month ≤ 12) (hd1 : 1 ≤ day)
    (hd2 : day ≤ daysIn month (year : Int))
    (hh : hour < 24) (hmi : min < 60) (hs : sec < 60) :
    absDate (civilAbs year month day hour min sec) = ((year : Int), month, day) := by
  have hyr := year_back year hy
  have hmd := monthDay_yday (isLeap (year : Int)) month day hm1 hm2 hd1 hd2
  have hlt0 := yday_lt (isLeap (year : Int)) month day hm1 hm2 hd2
  have hlt : daysBefore (month - 1)
      + (if isLeap (year : Int) && decide (3 ≤ month) then 1 else 0) + (day - 1)
      < 365 + (if (year + 292277022399) % 4 = 3 ∧
        ((year + 292277022399) % 100 / 4 ≠ 24 ∨ (year + 292277022399) % 400 / 100 = 3)
        then 1 else 0) := by
    by_cases hp : ((year + 292277022399) % 4 = 3 ∧
        ((year + 292277022399) % 100 / 4 ≠ 24 ∨ (year + 292277022399) % 400 / 100 = 3))
    · rw [if_pos hp]
      rw [if_pos ((isLeap_eq year).mpr hp)] at hlt0
      exact hlt0
    · rw [if_neg hp]
      rw [if_neg (fun h => hp ((isLeap_eq year).mp h))] at hlt0
      exact hlt0
  have hb : (year + 292277022399) % 400 / 100 < 4 := by omega
  have hc4 : (year + 292277022399) % 100 / 4 < 25 := by omega
  have he : (year + 292277022399) % 4 < 4 := by omega
  have htod : hour * 3600 + min * 60 + sec < 86400 := by omega
  have hc := absDate_cycles ((year + 292277022399) / 400) ((year + 292277022399) % 400 / 100)
    ((year + 292277022399) % 100 / 4) ((year + 292277022399) % 4)
    (daysBefore (month - 1) + (if isLeap (year : Int) && decide (3 ≤ month) then 1 else 0)
      + (day - 1)) (hour * 3600 + min * 60 + sec) hb hc4 he hlt htod
  rw [hyr, hmd] at hc
  rw [← hc, civilAbs, daysSinceEpoch_eq year hy]
  simp only [Nat.add_assoc]

theorem digit_toNat (c : Char) (h : (decide ('0' ≤ c) && decide (c ≤ '9')) = true) :
    48 ≤ c.toNat ∧ c.toNat ≤ 57 := by
  simp only [Bool.and_eq_true, decide_eq_true_eq] at h
  exact ⟨h.1, h.2⟩

theorem digitVal_lt (c : Char) (h : (decide ('0' ≤ c) && decide (c ≤ '9')) = true) :
    digitVal c < 10 := by
  have := digit_toNat c h
  unfold digitVal
  omega

theorem appendDigits_lt (f u : Nat) (acc : List Char) (h : u < 10) :
    appendDigits (f + 1) u acc = Char.ofNat (48 + u) :: acc := by
  have h0 : ¬ (u ≥ 10) := by omega
  simp only [appendDigits, h0, if_false]

theorem appendDigits_ge (f u : Nat) (acc : List Char) (h : u ≥ 10) :
    appendDigits (f + 1) u acc = appendDigits f (u / 10) (Char.ofNat (48 + u % 10) :: acc) := by
  simp only [appendDigits, h, if_true]

theorem appendInt_year (y : Nat) (hy : y ≤ 9999) :
    appendInt (y : Int) 4 = [Char.ofNat (48 + y / 1000), Char.ofNat (48 + y / 100 % 10),
      Char.ofNat (48 + y / 10 % 10), Char.ofNat (48 + y % 10)] := by
  have hneg : ¬ ((y : Int) < 0) := by omega
  simp only [appendInt, hneg, if_false, Int.natAbs_ofNat, List.nil_append]
  by_cases h1 : y ≥ 10
  · rw [appendDigits_ge 19 y _ h1]
    by_cases h2 : y / 10 ≥ 10
    · rw [appendDigits_ge 18 _ _ h2]
      by_cases h3 : y / 10 / 10 ≥ 10
      · rw [appendDigits_ge 17 _ _ h3, appendDigits_lt 16 _ _ (by omega)]
        have e1 : y / 10 / 10 / 10 = y / 1000 := by omega
        have e2 : y / 10 / 10 % 10 = y / 100 % 10 := by omega
        rw [e1, e2]
        rfl
      · rw [appendDigits_lt 17 _ _ (by omega)]
        have e0 : y / 1000 = 0 := by omega
        have e2 : y / 10 / 10 = y / 100 % 10 := by omega
        rw [e0, e2]
        rfl
    · rw [appendDigits_lt 18 _ _ (by omega)]
      have e0 : y / 1000 = 0 := by omega
      have e1 : y / 100 % 10 = 0 := by omega
      have e2 : y / 10 % 10 = y / 10 := by omega
      rw [e0, e1, e2]
      rfl
  · rw [appendDigits_lt 19 _ _ (by omega)]
    have e0 : y / 1000 = 0 := by omega
    have e1 : y / 100 % 10 = 0 := by omega
    have e2 : y / 10 % 10 = 0 := by omega
    have e3 : y % 10 = y := by omega
    rw [e0, e1, e2, e3]
    rfl

theorem appendInt_day (d : Nat) (h1 : 1 ≤ d) (h2 : d ≤ 31) :
    appendInt (d : Int) 0 = (toString d).data := by
  interval_cases d <;> rfl

theorem skip_some (v : List Char) (p : Char) (r : List Char) (h : skip v p = some r) :
    v = p :: r := by
  unfold skip at h
  split at h
  · split at h
    · rename_i c rest hc
      simp only [Option.some.injEq] at h
      rw [hc, h]
    · exact absurd h (by simp)
  · exact absurd h (by simp)

theorem getnum_fixed (s : List Char) (n : Nat) (r : List Char) (h : getnum s true = some (n, r)) :
    ∃ c0 c1, s = c0 :: c1 :: r ∧ (decide ('0' ≤ c0) && decide (c0 ≤ '9')) = true ∧
      (decide ('0' ≤ c1) && decide (c1 ≤ '9')) = true ∧ n = digitVal c0 * 10 + digitVal c1 := by
  rcases s with _ | ⟨c0, _ | ⟨c1, rest⟩⟩
  · simp [getnum, isDigit] at h
  · simp [getnum, isDigit] at h
  · by_cases h0 : (decide ('0' ≤ c0) && decide (c0 ≤ '9')) = true
    · by_cases h1 : (decide ('0' ≤ c1) && decide (c1 ≤ '9')) = true
      · simp only [getnum, isDigit, List.get?, h0, h1, Bool.not_true, Bool.false_eq_true, if_false,
          Option.some.injEq, Prod.mk.injEq] at h
        exact ⟨c0, c1, by rw [h.2], h0, h1, h.1.symm⟩
      · simp [getnum, isDigit, h0, h1] at h
    · simp [getnum, isDigit, h0] at h

theorem atoiDigits_lt (l : List Char) (acc y : Nat) (h : atoiDigits l acc = some y) :
    y < (acc + 1) * 10 ^ l.length := by
  induction l generalizing acc with
  | nil =>
    simp only [atoiDigits, Option.some.injEq] at h
    simp only [List.length_nil, pow_zero, Nat.mul_one]
    omega
  | cons c cs ih =>
    unfold atoiDigits at h
    split at h
    · rename_i hc
      have hd := digitVal_lt c hc
      have := ih _ h
      have h2 : (acc * 10 + digitVal c + 1) * 10 ^ cs.length ≤ ((acc + 1) * 10) * 10 ^ cs.length :=
        Nat.mul_le_mul_right _ (by omega)
      rw [List.length_cons, pow_succ]
      calc y < (acc * 10 + digitVal c + 1) * 10 ^ cs.length := this
        _ ≤ ((acc + 1) * 10) * 10 ^ cs.length := h2
        _ = (acc + 1) * (10 ^ cs.length * 10) := by ring
    · exact absurd h (by simp)

theorem parseNanoseconds_lt (value : List Char) (n ns : Nat) (hn : 1 ≤ n)
    (h : parseNanoseconds value n = some ns) : ns < 1000000000 := by
  rcases value with _ | ⟨c, rest⟩
  · simp [parseNanoseconds] at h
  · simp only [parseNanoseconds] at h
    split at h
    · exact absurd h (by simp)
    · generalize hnb : (if n > 10 then 10 else n) = nb at h
      have hnb1 : 1 ≤ nb ∧ nb ≤ 10 := by
        subst hnb
        split <;> omega
      split at h
      · exact absurd h (by simp)
      · rename_i y hy
        simp only [Option.some.injEq] at h
        have hlt := atoiDigits_lt _ _ _ hy
        simp only [List.length_drop, List.length_take, Nat.zero_add, Nat.one_mul] at hlt
        subst h
        have hle : 10 ^ (min nb (c :: rest).length - 1) ≤ 10 ^ (nb - 1) :=
          Nat.pow_le_pow_right (by omega) (by omega)
        have hy2 : y < 10 ^ (nb - 1) := lt_of_lt_of_le hlt hle
        have hpos : 0 < 10 ^ (10 - nb) := Nat.pow_pos (by omega)
        calc y * 10 ^ (10 - nb) < 10 ^ (nb - 1) * 10 ^ (10 - nb) :=
              Nat.mul_lt_mul_of_pos_right hy2 hpos
          _ = 10 ^ (nb - 1 + (10 - nb)) := (pow_add 10 _ _).symm
          _ = 10 ^ 9 := by
              congr 1
              omega
          _ = 1000000000 := by norm_num

theorem parseSecond_bounds (value : List Char) (sec nsec : Nat) (r : List Char)
    (h : parseSecond value = some (sec, nsec, r)) : sec < 60 ∧ nsec < 1000000000 := by
  unfold parseSecond at h
  split at h
  · exact absurd h (by simp)
  · split at h
    · exact absurd h (by simp)
    · rename_i hs
      split at h
      · split at h
        · simp only [] at h
          split at h
          · exact absurd h (by simp)
          · rename_i ns hns
            simp only [Option.some.injEq, Prod.mk.injEq] at h
            have := parseNanoseconds_lt _ _ _ (by omega) hns
            omega
        · simp only [Option.some.injEq, Prod.mk.injEq] at h
          omega
      · simp only [Option.some.injEq, Prod.mk.injEq] at h
        omega

theorem atoiDigits_four (y0 y1 y2 y3 : Char) (year : Nat)
    (h : atoiDigits [y0, y1, y2, y3] 0 = some year) :
    (decide ('0' ≤ y0) && decide (y0 ≤ '9')) = true ∧
    (decide ('0' ≤ y1) && decide (y1 ≤ '9')) = true ∧
    (decide ('0' ≤ y2) && decide (y2 ≤ '9')) = true ∧
    (decide ('0' ≤ y3) && decide (y3 ≤ '9')) = true ∧
    year = ((digitVal y0 * 10 + digitVal y1) * 10 + digitVal y2) * 10 + digitVal y3 := by
  by_cases h0 : (decide ('0' ≤ y0) && decide (y0 ≤ '9')) = true
  · by_cases h1 : (decide ('0' ≤ y1) && decide (y1 ≤ '9')) = true
    · by_cases h2 : (decide ('0' ≤ y2) && decide (y2 ≤ '9')) = true
      · by_cases h3 : (decide ('0' ≤ y3) && decide (y3 ≤ '9')) = true
        · simp only [atoiDigits, h0, h1, h2, h3, if_true, Option.some.injEq, Nat.zero_mul,
            Nat.zero_add] at h
          exact ⟨h0, h1, h2, h3, h.symm⟩
        · simp [atoiDigits, h0, h1, h2, h3] at h
      · simp [atoiDigits, h0, h1, h2] at h
    · simp [atoiDigits, h0, h1] at h
  · simp [atoiDigits, h0] at h

theorem Parse_inv (v : List Char) (t : Time) (h : Parse v = some t) :
    ∃ (y0 y1 y2 y3 m0 m1 d0 d1 : Char) (rest : List Char)
      (year month day hour min sec nsec : Nat) (off : Int),
      v = y0 :: y1 :: y2 :: y3 :: '-' :: m0 :: m1 :: '-' :: d0 :: d1 :: 'T' :: rest ∧
      (decide ('0' ≤ y0) && decide (y0 ≤ '9')) = true ∧
      (decide ('0' ≤ y1) && decide (y1 ≤ '9')) = true ∧
      (decide ('0' ≤ y2) && decide (y2 ≤ '9')) = true ∧
      (decide ('0' ≤ y3) && decide (y3 ≤ '9')) = true ∧
      (decide ('0' ≤ m0) && decide (m0 ≤ '9')) = true ∧
      (decide ('0' ≤ m1) && decide (m1 ≤ '9')) = true ∧
      (decide ('0' ≤ d0) && decide (d0 ≤ '9')) = true ∧
      (decide ('0' ≤ d1) && decide (d1 ≤ '9')) = true ∧
      year = ((digitVal y0 * 10 + digitVal y1) * 10 + digitVal y2) * 10 + digitVal y3 ∧
      month = digitVal m0 * 10 + digitVal m1 ∧
      day = digitVal d0 * 10 + digitVal d1 ∧
      1 ≤ month ∧ month ≤ 12 ∧ 1 ≤ day ∧ day ≤ daysIn month (year : Int) ∧
      hour < 24 ∧ min < 60 ∧ sec < 60 ∧ nsec < 1000000000 ∧
      t = { Date year month day hour min sec nsec with
              unixSec := (Date year month day hour min sec nsec).unixSec + -off,
              offset := off } := by
  rcases v with _ | ⟨y0, _ | ⟨y1, _ | ⟨y2, _ | ⟨y3, v4⟩⟩⟩⟩
  · simp [Parse] at h
  · simp [Parse] at h
  · simp [Parse] at h
  · simp [Parse] at h
  · unfold Parse at h
    split at h
    · exact absurd h (by simp)
    split at h
    · exact absurd h (by simp)
    rename_i year hyear
    split at h
    · exact absurd h (by simp)
    rename_i v5 hv5
    split at h
    · exact absurd h (by simp)
    rename_i month v7 hmonth
    split at h
    · exact absurd h (by simp)
    rename_i hmr
    split at h
    · exact absurd h (by simp)
    rename_i v8 hv8
    split at h
    · exact absurd h (by simp)
    rename_i day v10 hday
    split at h
    · exact absurd h (by simp)
    rename_i v11 hv11
    split at h
    · exact absurd h (by simp)
    rename_i hour v12 hhour
    split at h
    · exact absurd h (by simp)
    rename_i hhr
    split at h
    · exact absurd h (by simp)
    rename_i v13 hv13
    split at h
    · exact absurd h (by simp)
    rename_i min v14 hmin
    split at h
    · exact absurd h (by simp)
    rename_i hminr
    split at h
    · exact absurd h (by simp)
    rename_i v15 hv15
    split at h
    · exact absurd h (by simp)
    rename_i sec nsec v16 hsec
    split at h
    · exact absurd h (by simp)
    rename_i off v17 hzone
    split at h
    · exact absurd h (by simp)
    split at h
    · exact absurd h (by simp)
    rename_i hdr
    have hy4 := atoiDigits_four y0 y1 y2 y3 year hyear
    have e5 := skip_some _ _ _ hv5
    obtain ⟨m0, m1, e7, hm0, hm1, hmv⟩ := getnum_fixed _ _ _ hmonth
    have e8 := skip_some _ _ _ hv8
    obtain ⟨d0, d1, e10, hd0, hd1, hdv⟩ := getnum_fixed _ _ _ hday
    have e11 := skip_some _ _ _ hv11
    have hsb := parseSecond_bounds _ _ _ _ hsec
    simp only [List.drop_succ_cons, List.drop_zero] at e5
    simp only [Bool.or_eq_true, decide_eq_true_eq, not_or, Nat.not_lt, Nat.not_le] at hmr hdr
    simp only [Option.some.injEq] at h
    refine ⟨y0, y1, y2, y3, m0, m1, d0, d1, v11, year, month, day, hour, min, sec, nsec, off,
      ?_, hy4.1, hy4.2.1, hy4.2.2.1, hy4.2.2.2.1, hm0, hm1, hd0, hd1, hy4.2.2.2.2, hmv, hdv,
      by omega, by omega, by omega, by omega, by omega, by omega, hsb.1, hsb.2, h.symm⟩
    rw [e5, e7, e8, e10, e11]

end GoTime

theorem GoTime.daysBefore_diff (m : Nat) : daysBefore m - daysBefore (m - 1) ≤ 31 := by
  by_cases h : m ≤ 12
  · interval_cases m <;> decide
  · have e1 : daysBefore m = 365 := by
      unfold daysBefore
      split <;> omega
    have e2 : daysBefore (m - 1) = 365 := by
      unfold daysBefore
      split <;> omega
    omega

theorem GoTime.daysIn_le (m : Nat) (year : Int) : daysIn m year ≤ 31 := by
  unfold daysIn
  split
  · omega
  · exact daysBefore_diff m

theorem monthString_eq (m : Nat) (h1 : 1 ≤ m) (h2 : m ≤ 12) :
    monthString m = englishMonthName m := by
  interval_cases m <;> rfl

theorem Format_of_absDate (t : Time) (year month day : Nat) (hy : year ≤ 9999)
    (hm1 : 1 ≤ month) (hm2 : month ≤ 12) (hd1 : 1 ≤ day) (hd2 : day ≤ 31)
    (h : absDate t.abs = ((year : Int), month, day)) :
    t.Format = longDate year month day := by
  have e1 : year / 1000 % 10 = year / 1000 := by omega
  apply String.ext
  simp only [Time.Format, h, longDate, fourDigits, String.data_append, appendInt_year year hy,
    appendInt_day day hd1 hd2, monthString_eq month hm1 hm2, e1, List.append_assoc]

theorem formatDate_of_Parse (s : String) (t : Time) (h : Parse s.data = some t) :
    formatDate s = longDate (writtenYear s) (writtenMonth s) (writtenDay s) := by
  obtain ⟨y0, y1, y2, y3, m0, m1, d0, d1, rest, year, month, day, hour, min, sec, nsec, off,
    hv, hy0, hy1, hy2, hy3, hm0, hm1, hd0, hd1, hyear, hmonth, hday, hmr1, hmr2, hdr1, hdr2,
    hh, hmi, hs, hns, ht⟩ := Parse_inv _ _ h
  have b0 := digitVal_lt _ hy0
  have b1 := digitVal_lt _ hy1
  have b2 := digitVal_lt _ hy2
  have b3 := digitVal_lt _ hy3
  have hyr : year ≤ 9999 := by omega
  have hd31 : day ≤ 31 := le_trans hdr2 (daysIn_le _ _)
  have hne : s ≠ "" := by
    intro he
    rw [he] at hv
    exact absurd hv (by simp)
  have habs : absDate t.abs = ((year : Int), month, day) := by
    rw [ht, abs_Date year month day hour min sec nsec off hyr hmr1 hmr2 hdr1 hd31 hh hmi hs hns]
    exact absDate_civilAbs year month day hour min sec hyr hmr1 hmr2 hdr1 hdr2 hh hmi hs
  have hwy : writtenYear s = year := by
    simp only [writtenYear, writtenField, hv, List.drop_zero, List.take, List.foldl, hyear,
      digitVal, Nat.zero_mul, Nat.zero_add]
  have hwm : writtenMonth s = month := by
    simp only [writtenMonth, writtenField, hv, List.drop_succ_cons, List.drop_zero, List.take,
      List.foldl, hmonth, digitVal, Nat.zero_mul, Nat.zero_add]
  have hwd : writtenDay s = day := by
    simp only [writtenDay, writtenField, hv, List.drop_succ_cons, List.drop_zero, List.take,
      List.foldl, hday, digitVal, Nat.zero_mul, Nat.zero_add]
  rw [hwy, hwm, hwd]
  unfold formatDate
  rw [if_neg hne, h]
  exact Format_of_absDate t year month day hyr hmr1 hmr2 hdr1 hd31 habs

/-! ## The report as its call sequence -/

theorem addSection_calls (pdf : Fpdf) (title : String) :
    addSection pdf title = runCalls (addSectionCalls title) pdf := rfl

theorem addField_calls (pdf : Fpdf) (label value : String) :
    addField pdf label value = runCalls (addFieldCalls label value) pdf := rfl

theorem generatePDF_calls (student : Student) (now : GoTime.Time) :
    generatePDF student now = (runCalls (generatePDFCalls student now) New.AddPage, none) := by
  simp only [generatePDF, addSection_calls, addField_calls, generatePDFCalls, runCalls,
    List.foldl_append, List.foldl_cons, List.foldl_nil, Call.run]

/-! ## Effect of the library calls -/

theorem SetFont_Arial (f : Fpdf) (styleStr : String) (size : Int) (herr : f.err = none)
    (hs : ["B", "", "I"].contains styleStr = true) :
    f.SetFont "Arial" styleStr size
      = { f with fontFamily := "helvetica", fontStyle := styleStr,
                 fontSizePt := if size = 0 then f.fontSizePt else size } := by
  have hs2 : styleStr = "B" ∨ styleStr = "" ∨ styleStr = "I" := by
    have hm : styleStr ∈ ["B", "", "I"] := List.mem_of_elem_eq_true hs
    simpa using hm
  have e0 : ("Arial" = "") = False := by decide
  have e1 : toLower "Arial" = "arial" := by decide
  have e2 : ("helvetica" = "symbol") = False := by decide
  have e3 : ("helvetica" = "zapfdingbats") = False := by decide
  have e4 : coreFonts.contains "helvetica" = true := by decide
  rcases hs2 with h | h | h <;> subst h
  · have e5 : String.mk ((toUpper "B").data.filter (fun c => c != 'U' && c != 'S')) = "B" := by
      decide
    have e6 : ("B" = "IB") = False := by decide
    have e7 : ["", "B", "I", "BI"].contains "B" = true := by decide
    simp only [Fpdf.SetFont, herr, Option.isSome_none, Bool.false_eq_true, if_false, e0, e1, e2,
      e3, e4, e5, e6, e7, if_true]
  · have e5 : String.mk ((toUpper "").data.filter (fun c => c != 'U' && c != 'S')) = "" := by
      decide
    have e6 : ("" = "IB") = False := by decide
    have e7 : ["", "B", "I", "BI"].contains "" = true := by decide
    simp only [Fpdf.SetFont, herr, Option.isSome_none, Bool.false_eq_true, if_false, e0, e1, e2,
      e3, e4, e5, e6, e7, if_true]
  · have e5 : String.mk ((toUpper "I").data.filter (fun c => c != 'U' && c != 'S')) = "I" := by
      decide
    have e6 : ("I" = "IB") = False := by decide
    have e7 : ["", "B", "I", "BI"].contains "I" = true := by decide
    simp only [Fpdf.SetFont, herr, Option.isSome_none, Bool.false_eq_true, if_false, e0, e1, e2,
      e3, e4, e5, e6, e7, if_true]

theorem CellFormat_fits (f : Fpdf) (w h : Int) (txtStr borderStr : String) (ln : Nat)
    (alignStr : String) (fill : Bool) (herr : f.err = none) (hfont : f.fontFamily ≠ "")
    (hfit : f.y + h ≤ pageBreakTrigger) :
    f.CellFormat w h txtStr borderStr ln alignStr fill
      = { f with
          cells := f.cells ++ [{ page := f.page, x := f.x, y := f.y,
                                 w := if w = 0 then pageW - rMargin - f.x else w, h := h,
                                 txt := txtStr, border := borderStr, align := alignStr,
                                 fill := fill,
                                 fontFamily := f.fontFamily, fontStyle := f.fontStyle,
                                 fontSizePt := f.fontSizePt, textColor := f.textColor,
                                 fillColor := f.fillColor }],
          lasth := h,
          y := if ln > 0 then f.y + h else f.y,
          x := if ln > 0 then (if ln = 1 then lMargin else f.x)
               else f.x + (if w = 0 then pageW - rMargin - f.x else w) } := by
  have hnb : ¬ (f.y + h > pageBreakTrigger) := by omega
  simp only [Fpdf.CellFormat, herr, Option.isSome_none, Bool.false_eq_true, if_false, hfont, hnb]
  split <;> rfl

theorem Call.run_fits (c : Call) (fs : Bool) (f : Fpdf) (herr : f.err = none)
    (hfont : fs = true → f.fontFamily ≠ "") (hok : c.ok fs = true)
    (hfit : f.y + c.height ≤ pageBreakTrigger) :
    (c.run f).err = none ∧ ((fs || c.setsFont) = true → (c.run f).fontFamily ≠ "") ∧
      (c.run f).page = f.page ∧ (c.run f).y = f.y + c.advance ∧
      (c.run f).cells.map Gofpdf.Cell.box
        = f.cells.map Gofpdf.Cell.box ++ (c.place f.page f.y).toList := by
  cases c with
  | SetFont familyStr styleStr size =>
    simp only [Call.ok, Bool.and_eq_true, decide_eq_true_eq] at hok
    obtain ⟨hfam, hsty⟩ := hok
    subst hfam
    simp only [Call.run, SetFont_Arial f styleStr size herr hsty, Call.advance, Call.place,
      Option.toList, List.append_nil, Int.add_zero, herr, true_and, and_true]
    intro _
    decide
  | SetTextColor r g b =>
    simp only [Call.run, Fpdf.SetTextColor, Call.advance, Call.place, Call.setsFont,
      Option.toList, List.append_nil, Int.add_zero, herr, Bool.or_false, true_and, and_true]
    exact hfont
  | SetFillColor r g b =>
    simp only [Call.run, Fpdf.SetFillColor, Call.advance, Call.place, Call.setsFont,
      Option.toList, List.append_nil, Int.add_zero, herr, Bool.or_false, true_and, and_true]
    exact hfont
  | CellFormat w h txtStr borderStr ln alignStr fill =>
    simp only [Call.ok, Bool.and_eq_true, decide_eq_true_eq] at hok
    simp only [Call.height] at hfit
    have hf := hfont hok.1
    simp only [Call.run, CellFormat_fits f w h txtStr borderStr ln alignStr fill herr hf hfit,
      Call.advance, Call.place, Call.setsFont, Option.toList, herr, Bool.or_false,
      List.map_append, List.map_cons, List.map_nil, Gofpdf.Cell.box, true_and, and_true]
    refine ⟨fun _ => hf, ?_⟩
    split <;> simp
  | Cell w h txtStr =>
    simp only [Call.ok, Bool.and_eq_true, decide_eq_true_eq] at hok
    simp only [Call.height] at hfit
    have hf := hfont hok.1
    simp only [Call.run, Fpdf.Cell, CellFormat_fits f w h txtStr "" 0 "L" false herr hf hfit,
      Call.advance, Call.place, Call.setsFont, Option.toList, herr, Bool.or_false,
      List.map_append, List.map_cons, List.map_nil, Gofpdf.Cell.box, true_and, and_true]
    refine ⟨fun _ => hf, ?_⟩
    simp
  | Ln h =>
    simp only [Call.ok, decide_eq_true_eq] at hok
    have hh : ¬ h < 0 := by omega
    simp only [Call.run, Fpdf.Ln, Call.advance, Call.place, Call.setsFont, hh, if_false,
      Option.toList, List.append_nil, herr, Bool.or_false, true_and, and_true]
    exact hfont

theorem Call.advance_nonneg (c : Call) (fs : Bool) (hok : c.ok fs = true) : 0 ≤ c.advance := by
  cases c <;> simp only [Call.ok, Bool.and_eq_true, decide_eq_true_eq] at hok <;>
    simp only [Call.advance] <;> omega

theorem Call.height_nonneg (c : Call) (fs : Bool) (hok : c.ok fs = true) : 0 ≤ c.height := by
  cases c <;> simp only [Call.ok, Bool.and_eq_true, decide_eq_true_eq] at hok <;>
    simp only [Call.height] <;> omega

theorem need_nonneg (cs : List Call) : ∀ fs, wellFormed fs cs = true → 0 ≤ need cs := by
  induction cs with
  | nil => intro _ _; simp [need]
  | cons c cs ih =>
    intro fs hwf
    simp only [wellFormed, Bool.and_eq_true] at hwf
    have h1 := Call.height_nonneg c fs hwf.1
    simp only [need]
    exact le_trans h1 (le_max_left _ _)

theorem runCalls_fits (cs : List Call) : ∀ (fs : Bool) (f : Fpdf), f.err = none →
    (fs = true → f.fontFamily ≠ "") → wellFormed fs cs = true →
    f.y + need cs ≤ pageBreakTrigger →
    (runCalls cs f).err = none ∧ (runCalls cs f).page = f.page ∧
      (runCalls cs f).y = f.y + (cs.map Call.advance).sum ∧
      (runCalls cs f).cells.map Gofpdf.Cell.box
        = f.cells.map Gofpdf.Cell.box ++ layout f.page f.y cs ∧
      ∀ g ∈ trace f cs, g.err = none ∧ g.page = f.page ∧ f.y ≤ g.y ∧ g.y ≤ f.y + need cs := by
  induction cs with
  | nil =>
    intro fs f herr _ _ _
    simp [runCalls, layout, trace, need, herr]
  | cons c cs ih =>
    intro fs f herr hfont hwf hfit
    simp only [wellFormed, Bool.and_eq_true] at hwf
    obtain ⟨hok, hwf2⟩ := hwf
    simp only [need] at hfit
    have hh : f.y + c.height ≤ pageBreakTrigger := by
      have := le_max_left c.height (c.advance + need cs)
      omega
    have hn : c.advance + need cs ≤ max c.height (c.advance + need cs) := le_max_right _ _
    have hadv := Call.advance_nonneg c fs hok
    have hneed := need_nonneg cs _ hwf2
    obtain ⟨s1, s2, s3, s4, s5⟩ := Call.run_fits c fs f herr hfont hok hh
    obtain ⟨r1, r2, r3, r4, r5⟩ := ih (fs || c.setsFont) (c.run f) s1 s2 hwf2 (by omega)
    have hrun : runCalls (c :: cs) f = runCalls cs (c.run f) := rfl
    refine ⟨by rw [hrun]; exact r1, by rw [hrun, r2, s3], ?_, ?_, ?_⟩
    · rw [hrun, r3, s4, List.map_cons, List.sum_cons]
      omega
    · rw [hrun, r4, s5, s3, s4, layout, List.append_assoc]
    · intro g hg
      simp only [trace, List.mem_cons] at hg
      rcases hg with hg | hg
      · subst hg
        exact ⟨herr, rfl, le_refl _, by simp only [need]; omega⟩
      · obtain ⟨t1, t2, t3, t4⟩ := r5 g hg
        exact ⟨t1, by rw [t2, s3], by omega, by simp only [need]; omega⟩

/-! ## The report's call sequence -/

theorem Call.advance_blank (c : Call) : c.blank.advance = c.advance := by
  cases c <;> rfl

theorem Call.height_blank (c : Call) : c.blank.height = c.height := by
  cases c <;> rfl

theorem Call.ok_blank (c : Call) (fs : Bool) : c.blank.ok fs = c.ok fs := by
  cases c <;> rfl

theorem Call.setsFont_blank (c : Call) : c.blank.setsFont = c.setsFont := by
  cases c <;> rfl

theorem need_blank (cs : List Call) : need (cs.map Call.blank) = need cs := by
  induction cs with
  | nil => rfl
  | cons c cs ih => simp only [List.map_cons, need, ih, Call.advance_blank, Call.height_blank]

theorem wellFormed_blank (cs : List Call) :
    ∀ fs, wellFormed fs (cs.map Call.blank) = wellFormed fs cs := by
  induction cs with
  | nil => intro _; rfl
  | cons c cs ih =>
    intro fs
    simp only [List.map_cons, wellFormed, ih, Call.ok_blank, Call.setsFont_blank]

theorem map_advance_blank (cs : List Call) :
    (cs.map Call.blank).map Call.advance = cs.map Call.advance := by
  induction cs with
  | nil => rfl
  | cons c cs ih => simp only [List.map_cons, ih, Call.advance_blank]

theorem layout_geom_blank (cs : List Call) : ∀ (page : Nat) (y : Int),
    (layout page y (cs.map Call.blank)).map Box.geom = (layout page y cs).map Box.geom := by
  induction cs with
  | nil => intro _ _; rfl
  | cons c cs ih =>
    intro page y
    simp only [List.map_cons, layout, List.map_append, ih, Call.advance_blank]
    congr 1
    cases c <;> rfl

theorem layout_txt (cs : List Call) : ∀ (page : Nat) (y : Int),
    (layout page y cs).map (fun b => b.txt) = cs.filterMap Call.text := by
  induction cs with
  | nil => intro _ _; rfl
  | cons c cs ih =>
    intro page y
    cases c <;> simp [layout, Call.place, Call.text, ih]

set_option maxRecDepth 100000 in
theorem blank_calls (st : Student) (now : GoTime.Time) :
    (generatePDFCalls st now).map Call.blank
      = (generatePDFCalls emptyStudent epoch).map Call.blank := by
  simp [generatePDFCalls, addSectionCalls, addFieldCalls, Call.blank]

set_option maxRecDepth 100000 in
theorem report_texts (st : Student) (now : GoTime.Time) :
    (generatePDFCalls st now).filterMap Call.text = reportTexts st now := by
  simp [generatePDFCalls, addSectionCalls, addFieldCalls, Call.text, reportTexts]

set_option maxRecDepth 100000 in
theorem report_wellFormed (st : Student) (now : GoTime.Time) :
    wellFormed false (generatePDFCalls st now) = true := by
  rw [← wellFormed_blank, blank_calls, wellFormed_blank]
  decide!

set_option maxRecDepth 100000 in
theorem report_need (st : Student) (now : GoTime.Time) :
    need (generatePDFCalls st now) = mm 260 := by
  rw [← need_blank, blank_calls, need_blank]
  decide!

set_option maxRecDepth 100000 in
theorem report_advance (st : Student) (now : GoTime.Time) :
    ((generatePDFCalls st now).map Call.advance).sum = mm 260 := by
  rw [← map_advance_blank, blank_calls, map_advance_blank]
  decide!

set_option maxRecDepth 100000 in
theorem report_advances (st : Student) (now : GoTime.Time) :
    ((generatePDFCalls st now).map Call.advance).filter (fun a => a != 0) = reportAdvances := by
  rw [← map_advance_blank, blank_calls, map_advance_blank]
  decide!

theorem report_geom (st : Student) (now : GoTime.Time) :
    (layout 1 tMargin (generatePDFCalls st now)).map Box.geom
      = (layout 1 tMargin (generatePDFCalls emptyStudent epoch)).map Box.geom := by
  rw [← layout_geom_blank, blank_calls, layout_geom_blank]

/-- The report never needs a page break: the document `generatePDF` builds is the
no-break layout of its calls on page 1, with no error latched, and every state on
the way keeps the cursor between the top margin and 260 mm below it. -/
theorem generatePDF_layout (st : Student) (now : GoTime.Time) :
    (generatePDF st now).2 = none ∧
    (generatePDF st now).1.err = none ∧ (generatePDF st now).1.page = 1 ∧
    (generatePDF st now).1.y = tMargin + mm 260 ∧
    (generatePDF st now).1.cells.map Gofpdf.Cell.box
      = layout 1 tMargin (generatePDFCalls st now) ∧
    ∀ g ∈ trace New.AddPage (generatePDFCalls st now),
      g.err = none ∧ g.page = 1 ∧ tMargin ≤ g.y ∧ g.y ≤ tMargin + mm 260 := by
  have h0 : (New.AddPage).err = none := by decide
  have hfit : (New.AddPage).y + need (generatePDFCalls st now) ≤ pageBreakTrigger := by
    rw [report_need]
    decide
  obtain ⟨r1, r2, r3, r4, r5⟩ := runCalls_fits (generatePDFCalls st now) false New.AddPage h0
    (fun h => absurd h (by decide)) (report_wellFormed st now) hfit
  have e1 : (New.AddPage).page = 1 := by decide
  have e2 : (New.AddPage).y = tMargin := by decide
  have e3 : (New.AddPage).cells = [] := by decide
  rw [report_advance, e2] at r3
  rw [e1, e2, e3, List.map_nil, List.nil_append] at r4
  rw [report_need, e1, e2] at r5
  rw [e1] at r2
  rw [generatePDF_calls]
  exact ⟨rfl, r1, r2, r3, r4, r5⟩

theorem runCalls_mem_trace (cs : List Call) : ∀ f : Fpdf, runCalls cs f ∈ trace f cs := by
  induction cs with
  | nil => intro f; simp [runCalls, trace]
  | cons c cs ih =>
    intro f
    have hrun : runCalls (c :: cs) f = runCalls cs (c.run f) := rfl
    rw [hrun, trace]
    exact List.mem_cons_of_mem _ (ih _)

theorem pos_of_geom (bs : List Box) :
    bs.map Box.pos = (bs.map Box.geom).map (fun g => (g.1, g.2.1)) := by
  simp [Box.pos, Box.geom]

theorem fill_of_geom (bs : List Box) :
    bs.map (fun b => b.fill) = (bs.map Box.geom).map (fun g => g.2.2.2) := by
  simp [Box.geom]

set_option maxRecDepth 100000 in
theorem report_rowStarts :
    rowStartsFrom 0 (((layout 1 tMargin (generatePDFCalls emptyStudent epoch)).map Box.geom).map
      (fun g => (g.1, g.2.1)))
      = [3, 5, 7, 9, 11, 14, 16, 18, 20, 23, 25, 27, 30, 32, 34, 36, 38, 40, 42] := by
  decide!

set_option maxRecDepth 100000 in
theorem report_fillIndices :
    trueIndicesFrom 0 (((layout 1 tMargin (generatePDFCalls emptyStudent epoch)).map Box.geom).map
      (fun g => g.2.2.2)) = [2, 13, 22, 29] := by
  decide!

set_option maxRecDepth 100000 in
theorem report_boxes_within :
    ∀ g ∈ (layout 1 tMargin (generatePDFCalls emptyStudent epoch)).map Box.geom,
      g.1 = 1 ∧ tMargin ≤ g.2.1 ∧ g.2.1 + g.2.2.1 ≤ tMargin + mm 260 := by
  decide!

/-- Field rows of the rendered document, for every record. -/
theorem generatePDF_fieldRows (st : Student) (now : GoTime.Time) :
    fieldRows ((generatePDF st now).1.cells.map Gofpdf.Cell.box) =
    [("Name:", st.Name), ("Roll No:", sprintfD st.Roll), ("Date of Birth:", formatDate st.DOB),
     ("Gender:", st.Gender), ("Admission Date:", formatDate st.AdmissionDate),
     ("Email:", st.Email), ("Phone:", st.Phone), ("Current Address:", st.CurrentAddress),
     ("Permanent Address:", st.PermanentAddress),
     ("Class:", st.Class), ("Section:", st.Section), ("Reporter/Teacher:", st.ReporterName),
     ("Father Name:", st.FatherName), ("Father Phone:", st.FatherPhone),
     ("Mother Name:", st.MotherName), ("Mother Phone:", st.MotherPhone),
     ("Guardian Name:", st.GuardianName), ("Guardian Phone:", st.GuardianPhone),
     ("Guardian Relation:", st.RelationOfGuardian)] := by
  rw [(generatePDF_layout st now).2.2.2.2.1]
  unfold fieldRows
  rw [pos_of_geom, report_geom, report_rowStarts, layout_txt, report_texts]
  rfl

/-- Section banners of the rendered document, for every record. -/
theorem generatePDF_banners (st : Student) (now : GoTime.Time) :
    banners ((generatePDF st now).1.cells.map Gofpdf.Cell.box) =
    ["Personal Information", "Contact Information", "Academic Information",
     "Family Information"] := by
  rw [(generatePDF_layout st now).2.2.2.2.1]
  unfold banners
  rw [fill_of_geom, report_geom, report_fillIndices, layout_txt, report_texts]
  rfl

/-- Texts of the rendered document in reading order, for every record. -/
theorem generatePDF_texts (st : Student) (now : GoTime.Time) :
    (generatePDF st now).1.cells.map (fun c => c.txt) = reportTexts st now := by
  have h := (generatePDF_layout st now).2.2.2.2.1
  have h2 : (generatePDF st now).1.cells.map (fun c => c.txt)
      = ((generatePDF st now).1.cells.map Gofpdf.Cell.box).map (fun b => b.txt) := by
    simp [Gofpdf.Cell.box]
  rw [h2, h, layout_txt, report_texts]

/-- Every cell of the rendered document lies on page 1 between the top margin and
260 mm below it. -/
theorem generatePDF_cells_within (st : Student) (now : GoTime.Time) :
    ∀ c ∈ (generatePDF st now).1.cells,
      c.page = 1 ∧ tMargin ≤ c.y ∧ c.y + c.h ≤ tMargin + mm 260 := by
  intro c hc
  have h := (generatePDF_layout st now).2.2.2.2.1
  have hm : c.box.geom ∈ ((generatePDF st now).1.cells.map Gofpdf.Cell.box).map Box.geom :=
    List.mem_map_of_mem _ (List.mem_map_of_mem _ hc)
  rw [h, report_geom] at hm
  exact report_boxes_within _ hm

theorem Cell_eq (f : Fpdf) (w h : Int) (txtStr : String) (herr : f.err = none)
    (hfont : f.fontFamily ≠ "") :
    f.Cell w h txtStr =
      { f with
        page := if f.y + h > pageBreakTrigger then f.page + 1 else f.page,
        y := if f.y + h > pageBreakTrigger then tMargin else f.y,
        x := f.x + (if w = 0 then pageW - rMargin - f.x else w),
        lasth := h,
        cells := f.cells ++
          [{ page := if f.y + h > pageBreakTrigger then f.page + 1 else f.page, x := f.x,
             y := if f.y + h > pageBreakTrigger then tMargin else f.y,
             w := if w = 0 then pageW - rMargin - f.x else w, h := h,
             txt := txtStr, border := "", align := "L", fill := false, fontFamily := f.fontFamily,
             fontStyle := f.fontStyle, fontSizePt := f.fontSizePt, textColor := f.textColor,
             fillColor := f.fillColor }] } := by
  by_cases hb : f.y + h > pageBreakTrigger
  · simp [Fpdf.Cell, Fpdf.CellFormat, Fpdf.AddPage, herr, hfont, hb]
  · simp [Fpdf.Cell, Fpdf.CellFormat, Fpdf.AddPage, herr, hfont, hb]

theorem addField_eq (pdf : Fpdf) (label value : String) (herr : pdf.err = none) :
    addField pdf label value =
      { pdf with
        page := (rowLine pdf).1, x := lMargin, y := (rowLine pdf).2 + mm 8, lasth := mm 8,
        fontFamily := "helvetica", fontStyle := "", fontSizePt := 10, textColor := (0, 0, 0),
        cells := pdf.cells ++
          [{ page := (rowLine pdf).1, x := pdf.x, y := (rowLine pdf).2, w := mm 50, h := mm 8,
             txt := label, border := "", align := "L", fill := false, fontFamily := "helvetica",
             fontStyle := "B", fontSizePt := 10, textColor := (50, 50, 50),
             fillColor := pdf.fillColor },
           { page := (rowLine pdf).1, x := pdf.x + mm 50, y := (rowLine pdf).2,
             w := pageW - rMargin - (pdf.x + mm 50), h := mm 8,
             txt := value, border := "", align := "L", fill := false, fontFamily := "helvetica",
             fontStyle := "", fontSizePt := 10, textColor := (0, 0, 0),
             fillColor := pdf.fillColor }] } := by
  have hB : ["B", "", "I"].contains "B" = true := by decide
  have hR : ["B", "", "I"].contains "" = true := by decide
  have hne : "helvetica" ≠ "" := by decide
  have h50 : (mm 50 = 0) = False := by decide
  have hm8 : (mm 8 < 0) = False := by decide
  have h10 : ((10 : Int) = 0) = False := by decide
  have htop : (tMargin + mm 8 > pageBreakTrigger) = False := by decide
  have hp : (if pdf.y + mm 8 > pageBreakTrigger then pdf.page + 1 else pdf.page)
      = (rowLine pdf).1 := by
    unfold rowLine
    split <;> rfl
  have hy : (if pdf.y + mm 8 > pageBreakTrigger then tMargin else pdf.y) = (rowLine pdf).2 := by
    unfold rowLine
    split <;> rfl
  have h2 : ((rowLine pdf).2 + mm 8 > pageBreakTrigger) = False := by
    unfold rowLine
    split
    · exact htop
    · rename_i hfit
      exact eq_false hfit
  have e1 : (pdf.SetFont "Arial" "B" 10).SetTextColor 50 50 50
      = ({ pdf with
          fontFamily := "helvetica", fontStyle := "B", fontSizePt := 10,
          textColor := (50, 50, 50) } : Fpdf) := by
    rw [SetFont_Arial pdf "B" 10 herr hB]
    rfl
  have e2 : Fpdf.Cell
        ({ pdf with
          fontFamily := "helvetica", fontStyle := "B", fontSizePt := 10,
          textColor := (50, 50, 50) } : Fpdf) (mm 50) (mm 8) label
      = ({ pdf with
          page := (rowLine pdf).1, y := (rowLine pdf).2, x := pdf.x + mm 50,
          lasth := mm 8, fontFamily := "helvetica", fontStyle := "B", fontSizePt := 10,
          textColor := (50, 50, 50),
          cells := pdf.cells ++
            [ { page := (rowLine pdf).1, x := pdf.x, y := (rowLine pdf).2, w := mm 50,
                h := mm 8, txt := label, border := "", align := "L", fill := false,
                fontFamily := "helvetica", fontStyle := "B", fontSizePt := 10,
                textColor := (50, 50, 50), fillColor := pdf.fillColor } ] } : Fpdf) := by
    refine (Cell_eq _ _ _ _ ?_ ?_).trans ?_
    · exact herr
    · exact hne
    · simp only [h50, if_false, hp, hy]
  have e3 : (Fpdf.SetFont
        ({ pdf with
          page := (rowLine pdf).1, y := (rowLine pdf).2, x := pdf.x + mm 50,
          lasth := mm 8, fontFamily := "helvetica", fontStyle := "B", fontSizePt := 10,
          textColor := (50, 50, 50),
          cells := pdf.cells ++
            [ { page := (rowLine pdf).1, x := pdf.x, y := (rowLine pdf).2, w := mm 50,
                h := mm 8, txt := label, border := "", align := "L", fill := false,
                fontFamily := "helvetica", fontStyle := "B", fontSizePt := 10,
                textColor := (50, 50, 50), fillColor := pdf.fillColor } ] } : Fpdf) "Arial" "" 10).SetTextColor 0 0 0
      = ({ pdf with
          page := (rowLine pdf).1, y := (rowLine pdf).2, x := pdf.x + mm 50,
          lasth := mm 8, fontFamily := "helvetica", fontStyle := "", fontSizePt := 10,
          textColor := (0, 0, 0),
          cells := pdf.cells ++
            [ { page := (rowLine pdf).1, x := pdf.x, y := (rowLine pdf).2, w := mm 50,
                h := mm 8, txt := label, border := "", align := "L", fill := false,
                fontFamily := "helvetica", fontStyle := "B", fontSizePt := 10,
                textColor := (50, 50, 50), fillColor := pdf.fillColor } ] } : Fpdf) := by
    refine (congrArg (fun g => Fpdf.SetTextColor g 0 0 0) (SetFont_Arial _ "" 10 ?_ hR)).trans ?_
    · exact herr
    · rfl
  have e4 : Fpdf.Cell
        ({ pdf with
          page := (rowLine pdf).1, y := (rowLine pdf).2, x := pdf.x + mm 50,
          lasth := mm 8, fontFamily := "helvetica", fontStyle := "", fontSizePt := 10,
          textColor := (0, 0, 0),
          cells := pdf.cells ++
            [ { page := (rowLine pdf).1, x := pdf.x, y := (rowLine pdf).2, w := mm 50,
                h := mm 8, txt := label, border := "", align := "L", fill := false,
                fontFamily := "helvetica", fontStyle := "B", fontSizePt := 10,
                textColor := (50, 50, 50), fillColor := pdf.fillColor } ] } : Fpdf) 0 (mm 8) value
      = ({ pdf with
          page := (rowLine pdf).1, y := (rowLine pdf).2, x := pdf.x + mm 50 + (pageW - rMargin - (pdf.x + mm 50)),
          lasth := mm 8, fontFamily := "helvetica", fontStyle := "", fontSizePt := 10,
          textColor := (0, 0, 0),
          cells := (pdf.cells ++
            [ { page := (rowLine pdf).1, x := pdf.x, y := (rowLine pdf).2, w := mm 50,
                h := mm 8, txt := label, border := "", align := "L", fill := false,
                fontFamily := "helvetica", fontStyle := "B", fontSizePt := 10,
                textColor := (50, 50, 50), fillColor := pdf.fillColor } ]) ++
            [ { page := (rowLine pdf).1, x := pdf.x + mm 50, y := (rowLine pdf).2,
                w := pageW - rMargin - (pdf.x + mm 50), h := mm 8, txt := value,
                border := "", align := "L", fill := false, fontFamily := "helvetica",
                fontStyle := "", fontSizePt := 10, textColor := (0, 0, 0),
                fillColor := pdf.fillColor } ] } : Fpdf) := by
    refine (Cell_eq _ _ _ _ ?_ ?_).trans ?_
    · exact herr
    · exact hne
    · simp only [h2, if_false, if_true]
  unfold addField
  simp only []
  rw [e1, e2, e3, e4]
  simp only [Fpdf.Ln, hm8, if_false, List.append_assoc, List.cons_append, List.nil_append]

/-! ## Claims -/

theorem writtenField_take (s s2 : String) (start len : Nat) (h10 : start + len ≤ 10)
    (h : s2.data.take 10 = s.data.take 10) : writtenField s2 start len = writtenField s start len := by
  have e : ∀ l : List Char, (l.drop start).take len = ((l.take 10).drop start).take len := by
    intro l
    rw [List.drop_take, List.take_take]
    congr 1
    omega
  unfold writtenField
  rw [e s2.data, e s.data, h]

/-- Claim C1: every string that `time.Parse` accepts under the RFC 3339 layout is
rendered by `formatDate` as the English month name of the written month, a space,
the written day without leading zero, a comma and a space, and the written year in
four digits; two accepted strings that agree on their first ten characters (the
date) give the same result, whatever their time of day and zone offset. -/
theorem formatDate_accepted (s : String) (h : (Parse s.data).isSome = true) :
    formatDate s = longDate (writtenYear s) (writtenMonth s) (writtenDay s) ∧
    ∀ s2 : String, (Parse s2.data).isSome = true → s2.data.take 10 = s.data.take 10 →
      formatDate s2 = formatDate s := by
  obtain ⟨t, ht⟩ := Option.isSome_iff_exists.mp h
  refine ⟨formatDate_of_Parse s t ht, ?_⟩
  intro s2 h2 heq
  obtain ⟨t2, ht2⟩ := Option.isSome_iff_exists.mp h2
  rw [formatDate_of_Parse s t ht, formatDate_of_Parse s2 t2 ht2]
  unfold writtenYear writtenMonth writtenDay
  rw [writtenField_take s s2 0 4 (by omega) heq, writtenField_take s s2 5 2 (by omega) heq,
    writtenField_take s s2 8 2 (by omega) heq]

theorem formatDate_accepted_witness :
    formatDate "2010-05-04T00:00:00Z" = "May 4, 2010" ∧
    formatDate "2010-05-04T23:59:59.5-07:00" = formatDate "2010-05-04T00:00:00Z" :=
  ⟨(formatDate_accepted "2010-05-04T00:00:00Z" (by decide)).1.trans (by decide),
   (formatDate_accepted "2010-05-04T00:00:00Z" (by decide)).2 "2010-05-04T23:59:59.5-07:00"
     (by decide) (by decide)⟩

/-- Claim C2, as stated, fails: the string `2010-05-04T0:00:00Z` has a one-digit
hour, so it is not a valid RFC 3339 timestamp, it is not empty, and `formatDate`
does not return it unchanged (`time.Parse` reads the hour with `getnum(value, false)`
and accepts it). -/
theorem formatDate_invalid_counterexample :
    rfc3339Valid "2010-05-04T0:00:00Z" = false ∧ "2010-05-04T0:00:00Z" ≠ "" ∧
    formatDate "2010-05-04T0:00:00Z" = "May 4, 2010" ∧
    formatDate "2010-05-04T0:00:00Z" ≠ "2010-05-04T0:00:00Z" := by
  decide

/-- Claim C2, amended: every non-empty string that `time.Parse` rejects under the
RFC 3339 layout is returned unchanged; this covers every non-empty string of at
most ten characters (date-only strings) and every string whose written month or
day of month is impossible. -/
theorem formatDate_rejected :
    (∀ s : String, s ≠ "" → Parse s.data = none → formatDate s = s) ∧
    (∀ s : String, s ≠ "" → s.data.length ≤ 10 → formatDate s = s) ∧
    (∀ s : String, s ≠ "" →
      ¬ (1 ≤ writtenMonth s ∧ writtenMonth s ≤ 12 ∧ 1 ≤ writtenDay s ∧
          writtenDay s ≤ daysIn (writtenMonth s) (writtenYear s)) →
      formatDate s = s) := by
  have hrej : ∀ s : String, s ≠ "" → Parse s.data = none → formatDate s = s := by
    intro s hne h
    unfold formatDate
    rw [if_neg hne, h]
  refine ⟨hrej, ?_, ?_⟩
  · intro s hne hlen
    apply hrej s hne
    cases hp : Parse s.data with
    | none => rfl
    | some t =>
      obtain ⟨y0, y1, y2, y3, m0, m1, d0, d1, rest, year, month, day, hour, min, sec, nsec,
        off, hv, _⟩ := Parse_inv _ _ hp
      rw [hv] at hlen
      simp only [List.length_cons] at hlen
      omega
  · intro s hne hbad
    apply hrej s hne
    cases hp : Parse s.data with
    | none => rfl
    | some t =>
      exfalso
      apply hbad
      obtain ⟨y0, y1, y2, y3, m0, m1, d0, d1, rest, year, month, day, hour, min, sec, nsec,
        off, hv, hy0, hy1, hy2, hy3, hm0, hm1, hd0, hd1, hyear, hmonth, hday, hmr1, hmr2,
        hdr1, hdr2, _⟩ := Parse_inv _ _ hp
      have hwy : writtenYear s = year := by
        simp only [writtenYear, writtenField, hv, List.drop_zero, List.take, List.foldl, hyear,
          digitVal, Nat.zero_mul, Nat.zero_add]
      have hwm : writtenMonth s = month := by
        simp only [writtenMonth, writtenField, hv, List.drop_succ_cons, List.drop_zero,
          List.take, List.foldl, hmonth, digitVal, Nat.zero_mul, Nat.zero_add]
      have hwd : writtenDay s = day := by
        simp only [writtenDay, writtenField, hv, List.drop_succ_cons, List.drop_zero, List.take,
          List.foldl, hday, digitVal, Nat.zero_mul, Nat.zero_add]
      rw [hwy, hwm, hwd]
      exact ⟨hmr1, hmr2, hdr1, hdr2⟩

theorem formatDate_rejected_witness :
    formatDate "not-a-date" = "not-a-date" ∧ formatDate "2010-05-04" = "2010-05-04" ∧
    formatDate "2010-02-30T00:00:00Z" = "2010-02-30T00:00:00Z" :=
  ⟨formatDate_rejected.1 "not-a-date" (by decide) (by decide),
   formatDate_rejected.2.1 "2010-05-04" (by decide) (by decide),
   formatDate_rejected.2.2 "2010-02-30T00:00:00Z" (by decide) (by decide)⟩

/-- Claim C3: `formatDate ""` is the literal `N/A`, and the empty string is the only
input singled out before parsing: every other input is handed to `time.Parse`
and the result is decided by its outcome alone. -/
theorem formatDate_empty :
    formatDate "" = "N/A" ∧
    ∀ s : String, s ≠ "" →
      formatDate s = (match Parse s.data with
        | none => s
        | some t => t.Format) := by
  refine ⟨by decide, ?_⟩
  intro s hne
  unfold formatDate
  rw [if_neg hne]

theorem formatDate_empty_witness : formatDate " " = " " ∧ formatDate "N/A" = "N/A" :=
  ⟨(formatDate_empty.2 " " (by decide)).trans (by decide),
   (formatDate_empty.2 "N/A" (by decide)).trans (by decide)⟩

/-- Claim C4: for every record the document consists of the same sequence of cells:
title, generated-on caption, then the banners Personal, Contact, Academic and Family
Information, each followed by the label and value cells of its rows in the declared
order, then the footer; the banners are exactly these four, and the rows are the 19
label/value pairs of the table, the value being the record field verbatim, the
decimal rendering of `Roll`, or `formatDate` of the two date fields. -/
theorem generatePDF_sequence (st : Student) (now : GoTime.Time) :
    (generatePDF st now).1.cells.map (fun c => c.txt) = reportTexts st now ∧
    banners ((generatePDF st now).1.cells.map Gofpdf.Cell.box) =
      ["Personal Information", "Contact Information", "Academic Information",
       "Family Information"] ∧
    fieldRows ((generatePDF st now).1.cells.map Gofpdf.Cell.box) =
      [("Name:", st.Name), ("Roll No:", toString st.Roll),
       ("Date of Birth:", formatDate st.DOB), ("Gender:", st.Gender),
       ("Admission Date:", formatDate st.AdmissionDate),
       ("Email:", st.Email), ("Phone:", st.Phone), ("Current Address:", st.CurrentAddress),
       ("Permanent Address:", st.PermanentAddress),
       ("Class:", st.Class), ("Section:", st.Section), ("Reporter/Teacher:", st.ReporterName),
       ("Father Name:", st.FatherName), ("Father Phone:", st.FatherPhone),
       ("Mother Name:", st.MotherName), ("Mother Phone:", st.MotherPhone),
       ("Guardian Name:", st.GuardianName), ("Guardian Phone:", st.GuardianPhone),
       ("Guardian Relation:", st.RelationOfGuardian)] :=
  ⟨generatePDF_texts st now, generatePDF_banners st now, generatePDF_fieldRows st now⟩

/-- Claim C5, as stated, fails: in the document of the all-empty record not every
row has an empty value (the `Roll No:` row shows `0`). -/
theorem generatePDF_empty_counterexample :
    ("Roll No:", "0") ∈ fieldRows ((generatePDF emptyStudent epoch).1.cells.map Gofpdf.Cell.box) ∧
    ¬ (∀ r ∈ fieldRows ((generatePDF emptyStudent epoch).1.cells.map Gofpdf.Cell.box),
        r.2 = "") := by
  decide!

/-- Claim C5, amended: for the all-empty record `generatePDF` succeeds and the
document has all four banners and all 19 rows; every value is empty except that
`Roll No:` shows `0` and the two date rows show `N/A`. -/
theorem generatePDF_empty_record (now : GoTime.Time) :
    (generatePDF emptyStudent now).2 = none ∧ (generatePDF emptyStudent now).1.err = none ∧
    banners ((generatePDF emptyStudent now).1.cells.map Gofpdf.Cell.box) =
      ["Personal Information", "Contact Information", "Academic Information",
       "Family Information"] ∧
    fieldRows ((generatePDF emptyStudent now).1.cells.map Gofpdf.Cell.box) =
      [("Name:", ""), ("Roll No:", "0"), ("Date of Birth:", "N/A"), ("Gender:", ""),
       ("Admission Date:", "N/A"),
       ("Email:", ""), ("Phone:", ""), ("Current Address:", ""), ("Permanent Address:", ""),
       ("Class:", ""), ("Section:", ""), ("Reporter/Teacher:", ""),
       ("Father Name:", ""), ("Father Phone:", ""), ("Mother Name:", ""),
       ("Mother Phone:", ""), ("Guardian Name:", ""), ("Guardian Phone:", ""),
       ("Guardian Relation:", "")] := by
  refine ⟨(generatePDF_layout emptyStudent now).1, (generatePDF_layout emptyStudent now).2.1,
    generatePDF_banners emptyStudent now, ?_⟩
  rw [generatePDF_fieldRows]
  decide

/-- Claim C6: at every state `generatePDF` passes through, one after each library
call, the cursor is on page 1 and not below the page-break threshold, which itself
lies inside the A4 page; the returned document is the last of these states, and
every cell it holds ends at or above the threshold. -/
theorem cursor_within_page (st : Student) (now : GoTime.Time) :
    (generatePDF st now).1 ∈ trace New.AddPage (generatePDFCalls st now) ∧
    (∀ g ∈ trace New.AddPage (generatePDFCalls st now),
      g.page = 1 ∧ g.y ≤ pageBreakTrigger) ∧
    (∀ c ∈ (generatePDF st now).1.cells, c.page = 1 ∧ c.y + c.h ≤ pageBreakTrigger) ∧
    pageBreakTrigger < pageH := by
  have hlt : tMargin + mm 260 ≤ pageBreakTrigger := by decide
  have hlast : (generatePDF st now).1 = runCalls (generatePDFCalls st now) New.AddPage := by
    rw [generatePDF_calls]
  have h1 : (generatePDF st now).1 ∈ trace New.AddPage (generatePDFCalls st now) := by
    rw [hlast]
    exact runCalls_mem_trace (generatePDFCalls st now) New.AddPage
  have h2 : ∀ g ∈ trace New.AddPage (generatePDFCalls st now),
      g.page = 1 ∧ g.y ≤ pageBreakTrigger := by
    intro g hg
    have h := (generatePDF_layout st now).2.2.2.2.2 g hg
    exact ⟨h.2.1, le_trans h.2.2.2 hlt⟩
  have h3 : ∀ c ∈ (generatePDF st now).1.cells, c.page = 1 ∧ c.y + c.h ≤ pageBreakTrigger := by
    intro c hc
    have h := generatePDF_cells_within st now c hc
    exact ⟨h.1, le_trans h.2.2 hlt⟩
  have h4 : pageBreakTrigger < pageH := by decide
  exact ⟨h1, h2, h3, h4⟩

theorem cursor_within_page_witness :
    (generatePDF emptyStudent epoch).1.y ≤ pageBreakTrigger :=
  ((cursor_within_page emptyStudent epoch).2.1 _ (cursor_within_page emptyStudent epoch).1).2

/-- Claim C7: whatever the record, `generatePDF` returns a nil error, and the
document it returns has no error latched either. -/
theorem generatePDF_no_error (st : Student) (now : GoTime.Time) :
    (generatePDF st now).2 = none ∧ (generatePDF st now).1.err = none :=
  ⟨(generatePDF_layout st now).1, (generatePDF_layout st now).2.1⟩

/-- Claim C8: two records that agree on every field except `ID` and `SystemAccess`
give the same document (and the same returned error) whenever the two renders
happen on the same generation date, that is, at clock readings that format to the
same caption date; whatever the two clock readings, they give the same section
banners, the same field rows, the same cell geometry and, the caption line left
out, the same cell texts up to and including the footer.  With `s2 = s1` this is
the rendering of one record twice. -/
theorem generatePDF_ignores_id (s1 s2 : Student) (n1 n2 : GoTime.Time)
    (h : { s1 with ID := s2.ID, SystemAccess := s2.SystemAccess } = s2) :
    (n1.Format = n2.Format → generatePDF s1 n1 = generatePDF s2 n2) ∧
    banners ((generatePDF s1 n1).1.cells.map Gofpdf.Cell.box)
      = banners ((generatePDF s2 n2).1.cells.map Gofpdf.Cell.box) ∧
    fieldRows ((generatePDF s1 n1).1.cells.map Gofpdf.Cell.box)
      = fieldRows ((generatePDF s2 n2).1.cells.map Gofpdf.Cell.box) ∧
    ((generatePDF s1 n1).1.cells.map (fun c => c.txt)).eraseIdx 1
      = ((generatePDF s2 n2).1.cells.map (fun c => c.txt)).eraseIdx 1 ∧
    (generatePDF s1 n1).1.cells.map (fun c => c.box.geom)
      = (generatePDF s2 n2).1.cells.map (fun c => c.box.geom) := by
  refine ⟨?_, ?_, ?_, ?_, ?_⟩
  · intro hf
    rw [← h]
    simp only [generatePDF, hf]
  · rw [generatePDF_banners, generatePDF_banners]
  · rw [generatePDF_fieldRows, generatePDF_fieldRows, ← h]
  · rw [generatePDF_texts, generatePDF_texts, ← h]
    simp only [reportTexts, List.eraseIdx_cons_succ, List.eraseIdx_cons_zero]
  · have e : ∀ (s : Student) (n : GoTime.Time),
        (generatePDF s n).1.cells.map (fun c => c.box.geom)
          = ((generatePDF s n).1.cells.map Gofpdf.Cell.box).map Box.geom := by
      intro s n
      rw [List.map_map]
      rfl
    rw [e s1 n1, e s2 n2, (generatePDF_layout s1 n1).2.2.2.2.1,
      (generatePDF_layout s2 n2).2.2.2.2.1, report_geom s1 n1, report_geom s2 n2]

theorem generatePDF_ignores_id_witness :
    generatePDF { emptyStudent with Name := "Asha Rao", ID := 7, SystemAccess := true } epoch
      = generatePDF { emptyStudent with Name := "Asha Rao" }
          { unixSec := 86399, nsec := 5, offset := 0 } ∧
    fieldRows ((generatePDF { emptyStudent with Name := "Asha Rao", ID := 7 } epoch).1.cells.map
        Gofpdf.Cell.box)
      = fieldRows ((generatePDF { emptyStudent with Name := "Asha Rao" }
          { unixSec := 86400, nsec := 0, offset := 0 }).1.cells.map Gofpdf.Cell.box) :=
  ⟨(generatePDF_ignores_id _ _ epoch { unixSec := 86399, nsec := 5, offset := 0 }
      (by decide)).1 (by decide),
   (generatePDF_ignores_id _ _ epoch { unixSec := 86400, nsec := 0, offset := 0 }
      (by decide)).2.2.1⟩

/-- Claim C9: on a document with no error latched, `addField` appends exactly two
cells, the label in a cell of width 50 and the value in a cell on the same line that
starts where the label cell ends and reaches the right margin; afterwards the cursor
is at the left margin, exactly the row height 8 below the line of the row, which is
the cursor line whenever the row fits above the page-break threshold; the final
cursor does not depend on the value. -/
theorem addField_layout (pdf : Fpdf) (label value : String) (herr : pdf.err = none) :
    ∃ lc vc : Gofpdf.Cell,
      (addField pdf label value).cells = pdf.cells ++ [lc, vc] ∧
      lc.txt = label ∧ vc.txt = value ∧
      lc.w = mm 50 ∧ lc.h = mm 8 ∧ vc.h = mm 8 ∧
      vc.page = lc.page ∧ vc.y = lc.y ∧ lc.x = pdf.x ∧ vc.x = lc.x + lc.w ∧
      vc.x + vc.w = pageW - rMargin ∧
      (addField pdf label value).page = lc.page ∧
      (addField pdf label value).y = lc.y + mm 8 ∧
      (addField pdf label value).x = lMargin ∧
      (pdf.y + mm 8 ≤ pageBreakTrigger →
        lc.page = pdf.page ∧ lc.y = pdf.y ∧ (addField pdf label value).y = pdf.y + mm 8) ∧
      ∀ value2 : String,
        (addField pdf label value2).y = (addField pdf label value).y ∧
        (addField pdf label value2).x = (addField pdf label value).x ∧
        (addField pdf label value2).page = (addField pdf label value).page := by
  have hfit : pdf.y + mm 8 ≤ pageBreakTrigger → rowLine pdf = (pdf.page, pdf.y) := by
    intro h
    have hn : ¬ (pdf.y + mm 8 > pageBreakTrigger) := by omega
    simp only [rowLine, hn, if_false]
  have hv : ∀ v : String, (addField pdf label v).y = (rowLine pdf).2 + mm 8 ∧
      (addField pdf label v).x = lMargin ∧ (addField pdf label v).page = (rowLine pdf).1 := by
    intro v
    rw [addField_eq pdf label v herr]
    exact ⟨rfl, rfl, rfl⟩
  refine ⟨{ page := (rowLine pdf).1, x := pdf.x, y := (rowLine pdf).2, w := mm 50, h := mm 8,
            txt := label, border := "", align := "L", fill := false,
            fontFamily := "helvetica", fontStyle := "B", fontSizePt := 10,
            textColor := (50, 50, 50), fillColor := pdf.fillColor },
          { page := (rowLine pdf).1, x := pdf.x + mm 50, y := (rowLine pdf).2,
            w := pageW - rMargin - (pdf.x + mm 50), h := mm 8, txt := value, border := "",
            align := "L", fill := false, fontFamily := "helvetica", fontStyle := "",
            fontSizePt := 10, textColor := (0, 0, 0), fillColor := pdf.fillColor },
          ?_, rfl, rfl, rfl, rfl, rfl, rfl, rfl, rfl, rfl, ?_, (hv value).2.2, (hv value).1,
          (hv value).2.1, ?_, ?_⟩
  · rw [addField_eq pdf label value herr]
  · show pdf.x + mm 50 + (pageW - rMargin - (pdf.x + mm 50)) = pageW - rMargin
    omega
  · intro h
    show (rowLine pdf).1 = pdf.page ∧ (rowLine pdf).2 = pdf.y ∧ _
    rw [(hv value).1, hfit h]
    exact ⟨rfl, rfl, rfl⟩
  · intro value2
    rw [(hv value2).1, (hv value2).2.1, (hv value2).2.2, (hv value).1, (hv value).2.1,
      (hv value).2.2]
    exact ⟨rfl, rfl, rfl⟩

theorem addField_layout_witness :
    ∃ lc vc : Gofpdf.Cell,
      (addField New.AddPage "Name:" "Asha Rao").cells = [lc, vc] ∧ lc.w = mm 50 ∧
      vc.y = lc.y ∧ (addField New.AddPage "Name:" "Asha Rao").y = tMargin + mm 8 := by
  obtain ⟨lc, vc, h1, _, _, h4, _, _, _, h8, _, _, _, _, _, _, h15, _⟩ :=
    addField_layout New.AddPage "Name:" "Asha Rao" (by decide)
  exact ⟨lc, vc, h1, h4, h8, (h15 (by decide)).2.2⟩

/-- Claim C10: for every record the vertical advances of `generatePDF` are the same
list (header 15, 5, 5, 5; per banner 10 and 2; per row 8; gaps of 5 between
sections; footer 10 and 5) and sum to 260 mm; from the top margin this stays below
the page-break threshold, so the cursor ends 260 mm below the top margin on page 1,
every state passed through is on page 1, and every cell is on page 1. -/
theorem generatePDF_single_page (st : Student) (now : GoTime.Time) :
    ((generatePDFCalls st now).map Call.advance).filter (fun a => a != 0) = reportAdvances ∧
    ((generatePDFCalls st now).map Call.advance).sum = mm 260 ∧
    mm (15 + 5 + 5 + 5) + 4 * mm (10 + 2) + 19 * mm 8 + 3 * mm 5 + mm (10 + 5) = mm 260 ∧
    (generatePDF st now).1.y = tMargin + mm 260 ∧
    tMargin + mm 260 < pageBreakTrigger ∧
    (generatePDF st now).1.page = 1 ∧
    (∀ g ∈ trace New.AddPage (generatePDFCalls st now), g.page = 1) ∧
    (∀ c ∈ (generatePDF st now).1.cells, c.page = 1) := by
  refine ⟨report_advances st now, report_advance st now, by decide,
    (generatePDF_layout st now).2.2.2.1, by decide, (generatePDF_layout st now).2.2.1, ?_, ?_⟩
  · intro g hg
    exact ((generatePDF_layout st now).2.2.2.2.2 g hg).2.1
  · intro c hc
    exact (generatePDF_cells_within st now c hc).1

theorem generatePDF_single_page_witness :
    (generatePDF emptyStudent epoch).1.page = 1 ∧
    ∀ c ∈ (generatePDF emptyStudent epoch).1.cells, c.page = 1 :=
  ⟨(generatePDF_single_page emptyStudent epoch).2.2.2.2.2.1,
   (generatePDF_single_page emptyStudent epoch).2.2.2.2.2.2.2⟩

